import Mathlib

/-!
Verification of the capytaine mesh-loading layer (`capytaine/io/mesh_loaders.py`).

The source decoders read a text file, locate node and element regions with
regular expressions or sequential `readline` calls, tokenize lines on
whitespace, and convert the tokens with Python `float`/`int`.  We embed the
file at the granularity the decoders themselves work at: a file is a list of
lines, a line is a list of whitespace-separated tokens.  A token is modelled
as the class of text it carries: an integer literal (matching `\d+` with an
optional sign, convertible by both `int()` and `float()`), a real literal
with a decimal point (matching the source's `real_str` regex, convertible by
`float()` but not by `int()`), or any other piece of text (convertible by
neither).  Python exceptions are modelled by an explicit error type and every
fallible step returns `Except Err`.

Coordinates are modelled as rationals: no claim below depends on
floating-point rounding, only on which values are placed where.
-/

/-- One whitespace-separated token of an input file.  `int n` is an integer
literal, `real q` a literal with a decimal point (the source's `real_str`
regex requires a `.` so integer and real literals are disjoint), `str s` any
other text. -/
inductive Tok where
  | int (n : ℤ)
  | real (q : ℚ)
  | str (s : String)
deriving DecidableEq

/-- A line of an input file, already split on whitespace. -/
abbrev Line := List Tok

/-- Errors raised by the loaders.  The first group models the explicit
`raise` statements of the source, the second group the Python exceptions
that escape from library calls: `valueError` for failed `int()`/`float()`
conversion, ragged `np.asarray` and failed broadcasts, `typeError` for
arithmetic on a plain list, `indexError` for out-of-range indexing and
failed unpacking via `[0]`, `attributeError` for `.group` on a failed regex
search and `.append` on an ndarray, `nameError` for reading a local variable
that was never assigned, `keyError` for a missing dictionary key. -/
inductive Err where
  | fileNotFound (path : String)
  | extensionUnknown (kw : String)
  | datFileNotFound (f : String)
  | multipleNodeSections
  | keyError (k : String)
  | valueError
  | typeError
  | indexError
  | attributeError
  | nameError
  | notImplementedError
deriving DecidableEq

/-- Python `float(token)`: succeeds on integer and real literals. -/
def Tok.toFloat? : Tok → Option ℚ
  | .int n => some (n : ℚ)
  | .real q => some q
  | .str _ => none

/-- Python `int(token)`: succeeds on integer literals only
(`int("3.5")` raises `ValueError`). -/
def Tok.toInt? : Tok → Option ℤ
  | .int n => some n
  | _ => none

/-- A token matching the regex `\d+`: an unsigned integer literal. -/
def Tok.digit? : Tok → Option ℕ
  | .int n => if 0 ≤ n then some n.toNat else none
  | _ => none

/-- `list(map(float, toks))`: first unconvertible token raises `ValueError`. -/
def floatsOf (ts : List Tok) : Except Err (List ℚ) :=
  match ts.mapM Tok.toFloat? with
  | some qs => .ok qs
  | none => .error .valueError

/-- `list(map(int, toks))`: first unconvertible token raises `ValueError`. -/
def intsOf (ts : List Tok) : Except Err (List ℤ) :=
  match ts.mapM Tok.toInt? with
  | some ns => .ok ns
  | none => .error .valueError

/-- `np.asarray(rows, dtype=...)` on a list of rows: a ragged list of lists
raises `ValueError`, a rectangular one becomes a 2-D array. -/
def npMatrix (rows : List (List α)) : Except Err (List (List α)) :=
  match rows with
  | [] => .ok []
  | r :: rest => if rest.all (fun s => s.length = r.length) then .ok (r :: rest) else .error .valueError

/-- Convert a list of lines to float rows, failing on the first line with an
unconvertible token (the per-line `list(map(float, line.split()))` loop). -/
def rowsFloats (ls : List Line) : Except Err (List (List ℚ)) :=
  ls.mapM floatsOf

/-- Convert a list of lines to integer rows, failing on the first line with
an unconvertible token. -/
def rowsInts (ls : List Line) : Except Err (List (List ℤ)) :=
  ls.mapM intsOf

/-- Modelled from the spec: the external canonical mesh type
(`capytaine.meshes.meshes.Mesh`, not part of the analysed sources).  Per
spec section 3 it is a passive container for the vertex table, the face
table and an optional name; its constructor takes ownership of the arrays
unchanged. -/
structure Mesh where
  vertices : List (List ℚ)
  faces : List (List ℤ)
  name : Option String
deriving DecidableEq

/-- Modelled from the spec: the symmetry-plane tag handed to the external
reflection-symmetry wrapper; the loader only ever passes `xOz_Plane`. -/
inductive Plane where
  | xOz
  | yOz
  | xOy
deriving DecidableEq

/-- Modelled from the spec: result of a loader, either a plain mesh or a
half-mesh wrapped in the external `ReflectionSymmetricMesh` type with a
plane tag and an optional name. -/
inductive LoadedMesh where
  | flat (m : Mesh)
  | reflSym (half : Mesh) (plane : Plane) (name : Option String)
deriving DecidableEq

/-- The shared final step `faces - 1` of the 1-based decoders: subtract one
from every entry of the face table. -/
def subFaces (f : List (List ℤ)) : List (List ℤ) :=
  f.map (fun r => r.map (fun x => x - 1))

/-- Auxiliary for `sections`: accumulates the current run (reversed). -/
def sectionsAux (p : Line → Bool) (cur : List Line) : List Line → List (List Line)
  | [] => if cur.isEmpty then [] else [cur.reverse]
  | l :: ls =>
      if p l then sectionsAux p (l :: cur) ls
      else if cur.isEmpty then sectionsAux p [] ls
      else cur.reverse :: sectionsAux p [] ls

/-- The maximal runs of consecutive lines satisfying `p`: the line-level
model of `re.findall(r'((?:line_pattern)+)', data)`, which captures every
maximal contiguous block of matching lines. -/
def sections (p : Line → Bool) (ls : List Line) : List (List Line) :=
  sectionsAux p [] ls

/-! ## load_NAT : natural file format (sequential readline, counts in header) -/

/-- Parsing phase of `load_NAT`: skip one line, read `nv, nf`, then `nv`
vertex lines and `nf` face lines (`readline` past the end of the file
returns an empty string, i.e. an empty token list).  Returns the vertex
rows and the raw (still 1-based) face rows. -/
def natParse (lines : List Line) : Except Err (List (List ℚ) × List (List ℤ)) :=
  match intsOf (lines.getD 1 []) with
  | .error e => .error e
  | .ok counts =>
    match counts with
    | [nv, nf] =>
      let vlines := (List.range nv.toNat).map (fun i => lines.getD (2 + i) [])
      let flines := (List.range nf.toNat).map (fun i => lines.getD (2 + nv.toNat + i) [])
      match rowsFloats vlines with
      | .error e => .error e
      | .ok vrows =>
        match npMatrix vrows with
        | .error e => .error e
        | .ok v =>
          match rowsInts flines with
          | .error e => .error e
          | .ok frows =>
            match npMatrix frows with
            | .error e => .error e
            | .ok f => .ok (v, f)
    | _ => .error .valueError

/-- `load_NAT`: returns `Mesh(vertices, faces - 1, name)`. -/
def loadNAT (lines : List Line) (name : Option String) : Except Err Mesh :=
  match natParse lines with
  | .error e => .error e
  | .ok (v, f) => .ok ⟨v, subFaces f, name⟩

/-! ## load_NEM : Nemoh mesh-tool format (counts on two leading lines) -/

/-- Python `int(line)` applied to a whole raw line: succeeds exactly when the
line consists of a single integer token (surrounding whitespace is
tolerated by `int`, any further token makes the conversion fail). -/
def nemLineInt (l : Line) : Option ℤ :=
  match l with
  | [Tok.int n] => some n
  | _ => none

/-- Parsing phase of `load_NEM`: `nv` and `nf` each on their own line, then
`nv` vertex lines and `nf` face lines. -/
def nemParse (lines : List Line) : Except Err (List (List ℚ) × List (List ℤ)) :=
  match nemLineInt (lines.getD 0 []) with
  | none => .error .valueError
  | some nv =>
    match nemLineInt (lines.getD 1 []) with
    | none => .error .valueError
    | some nf =>
      let vlines := (List.range nv.toNat).map (fun i => lines.getD (2 + i) [])
      let flines := (List.range nf.toNat).map (fun i => lines.getD (2 + nv.toNat + i) [])
      match rowsFloats vlines with
      | .error e => .error e
      | .ok vrows =>
        match npMatrix vrows with
        | .error e => .error e
        | .ok v =>
          match rowsInts flines with
          | .error e => .error e
          | .ok frows =>
            match npMatrix frows with
            | .error e => .error e
            | .ok f => .ok (v, f)

/-- `load_NEM`: returns `Mesh(vertices, faces - 1, name)`. -/
def loadNEM (lines : List Line) (name : Option String) : Except Err Mesh :=
  match nemParse lines with
  | .error e => .error e
  | .ok (v, f) => .ok ⟨v, subFaces f, name⟩

/-! ## load_GDF : WAMIT format (4 private vertices per face) -/

/-- One body line of a GDF file assigned into `vertices[iv, :]`: the tokens
are converted to floats by numpy and the row must broadcast to shape `(3,)`,
so exactly 3 float-convertible tokens are required. -/
def gdfRow (l : Line) : Except Err (List ℚ) :=
  match floatsOf l with
  | .error e => .error e
  | .ok r => if r.length = 3 then .ok r else .error .valueError

/-- The face row of one GDF cell: the four fresh vertex slots
`iv, iv+1, iv+2, iv+3` recorded by `faces[icell, k] = iv`. -/
def gdfFace (i : ℕ) : List ℤ :=
  [(i : ℤ), (i : ℤ) + 1, (i : ℤ) + 2, (i : ℤ) + 3]

/-- The `for icell in range(nf)` loop of `load_GDF`: for each cell read 4
lines into fresh vertex slots (the current vertex count and the three
following) and record those indices as the cell's face row.  `base` is the
index of the first body line in the file. -/
def gdfLoop (lines : List Line) (base : ℕ) :
    ℕ → List (List ℚ) → List (List ℤ) → Except Err (List (List ℚ) × List (List ℤ))
  | 0, vs, fs => .ok (vs, fs)
  | n + 1, vs, fs =>
    match gdfRow (lines.getD (base + vs.length) []) with
    | .error e => .error e
    | .ok r0 =>
      match gdfRow (lines.getD (base + vs.length + 1) []) with
      | .error e => .error e
      | .ok r1 =>
        match gdfRow (lines.getD (base + vs.length + 2) []) with
        | .error e => .error e
        | .ok r2 =>
          match gdfRow (lines.getD (base + vs.length + 3) []) with
          | .error e => .error e
          | .ok r3 =>
            gdfLoop lines base n (vs ++ [r0, r1, r2, r3]) (fs ++ [gdfFace vs.length])

/-- Extract the face count of a GDF file: `nf = int(line4[0])`. -/
def gdfNf (lines : List Line) : Except Err ℤ :=
  match (lines.getD 3 []).head? with
  | none => .error .indexError
  | some t =>
    match t.toInt? with
    | none => .error .valueError
    | some nf => .ok nf

/-- `load_GDF`: skip one header line; read (and ignore) `ulen`/`grav` from
line 1 and `isx`/`isy` from line 2, each of which must have at least two
tokens (`line[1]` raises `IndexError` otherwise); read `nf`; then run the
cell loop.  `np.zeros` with a negative row count raises `ValueError`.
Face indices are generated 0-based directly, no subtraction happens. -/
def loadGDF (lines : List Line) (name : Option String) : Except Err Mesh :=
  if (lines.getD 1 []).length < 2 then .error .indexError
  else if (lines.getD 2 []).length < 2 then .error .indexError
  else
    match gdfNf lines with
    | .error e => .error e
    | .ok nf =>
      if nf < 0 then .error .valueError
      else
        match gdfLoop lines 4 nf.toNat [] [] with
        | .error e => .error e
        | .ok (vs, fs) => .ok ⟨vs, fs, name⟩

/-! ## load_MAR : Nemoh native format (sentinel-terminated, optional symmetry) -/

/-- The vertex `while` loop of `load_MAR`: read lines until the first token
equals `'0'`; each preceding line contributes `map(float, line[1:])`.
An empty line (end of file reached without a sentinel) raises `IndexError`
at `line[0]`. -/
def marVertLoop : List Line → Except Err (List (List ℚ) × List Line)
  | [] => .error .indexError
  | l :: rest =>
    match l.head? with
    | none => .error .indexError
    | some t =>
      if t = Tok.int 0 then .ok ([], rest)
      else
        match floatsOf (l.drop 1) with
        | .error e => .error e
        | .ok row =>
          match marVertLoop rest with
          | .error e => .error e
          | .ok (rs, r') => .ok (row :: rs, r')

/-- The face `while` loop of `load_MAR`: read lines until the first token
equals `'0'`; each preceding line contributes `map(int, line)` whole. -/
def marFaceLoop : List Line → Except Err (List (List ℤ) × List Line)
  | [] => .error .indexError
  | l :: rest =>
    match l.head? with
    | none => .error .indexError
    | some t =>
      if t = Tok.int 0 then .ok ([], rest)
      else
        match intsOf l with
        | .error e => .error e
        | .ok row =>
          match marFaceLoop rest with
          | .error e => .error e
          | .ok (rs, r') => .ok (row :: rs, r')

/-- Parsing phase of `load_MAR`: the header line must unpack into exactly
two tokens (`_, symmetric_mesh = header.split()`); then the two
sentinel-terminated loops, with the vertex rows converted by `np.array`
before the face loop starts.  Returns the symmetry token, the vertex table
and the raw 1-based face rows. -/
def marParse (lines : List Line) : Except Err (Tok × List (List ℚ) × List (List ℤ)) :=
  match lines.headD [] with
  | [_, b] =>
    match marVertLoop (lines.drop 1) with
    | .error e => .error e
    | .ok (vrows, rest) =>
      match npMatrix vrows with
      | .error e => .error e
      | .ok v =>
        match marFaceLoop rest with
        | .error e => .error e
        | .ok (frows, _) =>
          match npMatrix frows with
          | .error e => .error e
          | .ok f => .ok (b, v, f)
  | _ => .error .valueError

/-- `load_MAR`: if `int(symmetric_mesh) == 1` return the half mesh wrapped
in the reflection-symmetry type with plane `xOz` (the half mesh is named
`half_of_<name>` when a name is given), otherwise a plain mesh. -/
def loadMAR (lines : List Line) (name : Option String) : Except Err LoadedMesh :=
  match marParse lines with
  | .error e => .error e
  | .ok (flagTok, v, f) =>
    match flagTok.toInt? with
    | none => .error .valueError
    | some k =>
      if k = 1 then
        match name with
        | none => .ok (.reflSym ⟨v, subFaces f, none⟩ .xOz none)
        | some nm => .ok (.reflSym ⟨v, subFaces f, some ("half_of_" ++ nm)⟩ .xOz (some nm))
      else .ok (.flat ⟨v, subFaces f, name⟩)

/-- Observer: the number of vertex lines of a MAR file before the first
sentinel line (first token `'0'`), i.e. the lines the vertex loop
consumes. -/
def marVertexLineCount (lines : List Line) : ℕ :=
  ((lines.drop 1).takeWhile (fun l => decide (l.head? ≠ some (Tok.int 0)))).length

/-- Observer: the symmetry flag of a MAR file, `int()` of the second token
of the header line. -/
def marFlagVal (lines : List Line) : Option ℤ :=
  match lines.headD ([] : Line) with
  | [_, b] => b.toInt?
  | _ => none

/-- The face table of a loader result (the half mesh's faces for a
symmetry-wrapped result). -/
def LoadedMesh.facesOf : LoadedMesh → List (List ℤ)
  | .flat m => m.faces
  | .reflSym h _ _ => h.faces

/-! ## load_RAD : RADIOSS format (regex-delimited sections) -/

/-- A RADIOSS node line: the regex
`\s*\d+\s*(real)\s*(real)\s*(real)` — an unsigned integer id followed by
three real literals. -/
def isRadNodeLine (l : Line) : Bool :=
  match l with
  | [Tok.int n, Tok.real _, Tok.real _, Tok.real _] => 0 ≤ n
  | _ => false

/-- A RADIOSS element line: the regex `^\s*(?:\d+\s+){6}\d+\s*$` — exactly
seven unsigned integers. -/
def isRadElemLine (l : Line) : Bool :=
  l.length = 7 && l.all (fun t => (Tok.digit? t).isSome)

/-- The three coordinate groups captured from a RADIOSS node line. -/
def radCoords (l : Line) : List ℚ :=
  (l.drop 1).filterMap Tok.toFloat?

/-- The connectivity columns of a RADIOSS element line:
`elem.split()[3:]`, converted by `int`. -/
def radFaceRow (l : Line) : List ℤ :=
  (l.drop 3).filterMap Tok.toInt?

/-- Parsing phase of `load_RAD`: `search` on `((?:node_line)+)` takes the
first maximal run of node lines; `search` on `((?:elem_line){3,})` takes
the first maximal run of at least three element lines.  A failed search
returns `None` and the subsequent `.group(1)` raises `AttributeError`. -/
def radParse (lines : List Line) : Except Err (List (List ℚ) × List (List ℤ)) :=
  match (sections isRadNodeLine lines).head? with
  | none => .error .attributeError
  | some nodeSec =>
    match (sections isRadElemLine lines).find? (fun s => 3 ≤ s.length) with
    | none => .error .attributeError
    | some elemSec => .ok (nodeSec.map radCoords, elemSec.map radFaceRow)

/-- `load_RAD`: returns `Mesh(vertices, faces - 1, name)`. -/
def loadRAD (lines : List Line) (name : Option String) : Except Err Mesh :=
  match radParse lines with
  | .error e => .error e
  | .ok (v, f) => .ok ⟨v, subFaces f, name⟩

/-! ## load_HST : HydroSTAR format (repeated sections, concatenated) -/

/-- A HydroSTAR node line: the regex `\s*\d+(?:\s+real){3}` — an unsigned
integer id followed by three real literals. -/
def isHstNodeLine (l : Line) : Bool :=
  match l with
  | [Tok.int n, Tok.real _, Tok.real _, Tok.real _] => 0 ≤ n
  | _ => false

/-- A HydroSTAR element line: the regex `^\s*(?:\d+\s+){3}\d+\s*$` —
exactly four unsigned integers. -/
def isHstElemLine (l : Line) : Bool :=
  l.length = 4 && l.all (fun t => (Tok.digit? t).isSome)

/-- Coordinates of a HydroSTAR node line: `node.split()[1:]` as floats. -/
def hstCoords (l : Line) : List ℚ :=
  (l.drop 1).filterMap Tok.toFloat?

/-- Raw face row of a HydroSTAR element line: all four integers. -/
def hstFaceRow (l : Line) : List ℤ :=
  l.filterMap Tok.toInt?

/-- Parsing phase of `load_HST`.  The source accumulates each kind of
section in a temporary Python list that is replaced by an ndarray after the
first section is processed; on a second section the loop calls `.append` on
that ndarray and raises `AttributeError`.  With no node section the vertex
table stays the initial empty Python list; with no element section the face
table stays the initial empty Python list and the final `faces - 1` raises
`TypeError`. -/
def hstParse (lines : List Line) : Except Err (List (List ℚ) × List (List ℤ)) :=
  match sections isHstNodeLine lines with
  | _ :: _ :: _ => .error .attributeError
  | nsecs =>
    let v := (nsecs.headD []).map hstCoords
    match sections isHstElemLine lines with
    | [] => .error .typeError
    | [esec] => .ok (v, esec.map hstFaceRow)
    | _ => .error .attributeError

/-- `load_HST`: returns `Mesh(vertices, faces - 1, name)`. -/
def loadHST (lines : List Line) (name : Option String) : Except Err Mesh :=
  match hstParse lines with
  | .error e => .error e
  | .ok (v, f) => .ok ⟨v, subFaces f, name⟩

/-! ## load_TEC : TECPLOT format (one composite regex) -/

/-- The captures of the TECPLOT zone regex
`ZONE.*N=(\d+), E=(\d+), F=FEPOINT, ET=QUADRILATERAL (floats) (ints)`:
the two counts are digit strings, the third group is a block of real
literals (at least three), the fourth a possibly empty block of unsigned
integers.  The regex itself guarantees the numeric classes, so conversion
of the captured text never fails. -/
structure TecZone where
  n : ℕ
  e : ℕ
  verts : List ℚ
  faceIdx : List ℤ
deriving DecidableEq

/-- A TECPLOT file as seen by `load_TEC`: either the composite zone regex
matched (with its captures) or it did not. -/
structure TecData where
  zone : Option TecZone
deriving DecidableEq

/-- `chunksFuel w fuel xs`: split `xs` into consecutive chunks of `w`
elements (`fuel` bounds the recursion; callers pass `xs.length`). -/
def chunksFuel (w : ℕ) : ℕ → List α → List (List α)
  | 0, _ => []
  | _, [] => []
  | fuel + 1, xs => xs.take w :: chunksFuel w fuel (xs.drop w)

/-- `np.reshape(xs, (rows, -1))`: the length must be a positive multiple of
`rows`; yields `rows` chunks of equal width. -/
def reshapeRows (rows : ℕ) (xs : List α) : Except Err (List (List α)) :=
  if rows = 0 then .error .valueError
  else if xs.length % rows = 0 then .ok (chunksFuel (xs.length / rows) xs.length xs)
  else .error .valueError

/-- `np.reshape(xs, (n, 4))`: the length must be exactly `4 * n`. -/
def reshape4 (n : ℕ) (xs : List α) : Except Err (List (List α)) :=
  if xs.length = 4 * n then .ok (chunksFuel 4 xs.length xs) else .error .valueError

/-- Parsing phase of `load_TEC`: a failed zone search raises
`AttributeError`; the float block is reshaped to `(nv, -1)` and the first
three columns kept; the integer block is reshaped to `(nf, 4)`. -/
def tecParse (d : TecData) : Except Err (List (List ℚ) × List (List ℤ)) :=
  match d.zone with
  | none => .error .attributeError
  | some z =>
    match reshapeRows z.n z.verts with
    | .error e => .error e
    | .ok vrows =>
      match reshape4 z.e z.faceIdx with
      | .error e => .error e
      | .ok frows => .ok (vrows.map (fun r => r.take 3), frows)

/-- `load_TEC`: returns `Mesh(vertices, faces - 1, name)`. -/
def loadTEC (d : TecData) (name : Option String) : Except Err Mesh :=
  match tecParse d with
  | .error e => .error e
  | .ok (v, f) => .ok ⟨v, subFaces f, name⟩

/-! ## load_MSH : GMSH legacy format -/

/-- A GMSH file as seen by `load_MSH` after the two `re.search` calls:
the `$Nodes` block (its count line and the whitespace-split data tokens)
and the `$Elements` block (its count line and its data lines), each absent
when the corresponding regex did not match. -/
structure MshData where
  nodes : Option (ℕ × List Tok)
  elts : Option (ℕ × List Line)
deriving DecidableEq

/-- A GMSH element line of type `t`: the regex `^\d+\s<t>(?:\s\d+)+?$` —
all tokens unsigned integers, at least three of them, the second equal to
`t`. -/
def isMshEltLine (t : ℕ) (l : Line) : Bool :=
  3 ≤ l.length && l.all (fun tok => (Tok.digit? tok).isSome) && l.getD 1 (Tok.str "") = Tok.int t

/-- All integers of a GMSH element line. -/
def mshLineInts (l : Line) : List ℤ :=
  l.filterMap Tok.toInt?

/-- Triangle handling of `load_MSH`: `triangle = tri_elt[-3:]`, then
`triangle.append(triangle[0])`. -/
def mshTriFace (xs : List ℤ) : List ℤ :=
  let t := xs.drop (xs.length - 3)
  t ++ [t.headD 0]

/-- Quadrangle handling of `load_MSH`: `quadrangle = quad_elt[-4:]`. -/
def mshQuadFace (xs : List ℤ) : List ℤ :=
  xs.drop (xs.length - 4)

/-- Parsing phase of `load_MSH`: both block searches happen before any
conversion (`AttributeError` on a failed search); the node tokens are
converted to floats, reshaped to `(-1, 4)` and the id column dropped; the
face list collects every triangle line then every quadrangle line and is
converted by `np.asarray` (ragged input raises `ValueError`). -/
def mshParse (d : MshData) : Except Err (List (List ℚ) × List (List ℤ)) :=
  match d.nodes with
  | none => .error .attributeError
  | some (_nbNodes, ntoks) =>
    match d.elts with
    | none => .error .attributeError
    | some (_nbElts, elines) =>
      match floatsOf ntoks with
      | .error e => .error e
      | .ok qs =>
        if qs.length % 4 = 0 then
          let vrows := (chunksFuel 4 qs.length qs).map (fun r => r.drop 1)
          let tris := (elines.filter (isMshEltLine 2)).map (fun l => mshTriFace (mshLineInts l))
          let quads := (elines.filter (isMshEltLine 3)).map (fun l => mshQuadFace (mshLineInts l))
          match npMatrix (tris ++ quads) with
          | .error e => .error e
          | .ok f => .ok (vrows, f)
        else .error .valueError

/-- `load_MSH`: returns `Mesh(vertices, faces - 1, name)`. -/
def loadMSH (d : MshData) (name : Option String) : Except Err Mesh :=
  match mshParse d with
  | .error e => .error e
  | .ok (v, f) => .ok ⟨v, subFaces f, name⟩

/-! ## _dump_vtk : shared VTK extraction -/

/-- One cell of `_dump_vtk`: the face row starts as `zeros(4)`, positions
`0 .. nv_facet-1` are filled with the cell's point ids (a cell with more
than four points writes past the row and raises `IndexError`), and a
3-point cell repeats its first id in the fourth slot. -/
def dumpVtkFace (cell : List ℤ) : Except Err (List ℤ) :=
  if 4 < cell.length then .error .indexError
  else
    let row := cell ++ List.replicate (4 - cell.length) 0
    .ok (if cell.length = 3 then row.set 3 (cell.headD 0) else row)

/-- The VTK dataset handed to `_dump_vtk` by the external readers: point
coordinates and cell connectivity (pure data, the VTK reader itself is out
of scope per the spec). -/
structure VtkPoly where
  points : List (List ℚ)
  cells : List (List ℤ)
deriving DecidableEq

/-- `_dump_vtk`: copies the points and converts every cell to a width-4
face row. -/
def dumpVtk (d : VtkPoly) : Except Err (List (List ℚ) × List (List ℤ)) :=
  match d.cells.mapM dumpVtkFace with
  | .error e => .error e
  | .ok fs => .ok (d.points, fs)

/-! ## load_INP : DIODORE composite configuration format

The configuration text is modelled after the directive-lexing phase: the
named frames (a dictionary built by `*FRAME` matches, later bindings
winning), the ordered `*NODE`/`*ELEMENT` directive list, and the companion
`.DAT` files as a name-to-content map.  A node directive's `increment`
field models `field['INCREMENT'] != 'NO'` (the key defaults to `'NO'`). -/

/-- One `*NODE` or `*ELEMENT` directive record of the layout. -/
inductive InpDirective where
  | node (input : String) (frame : String) (increment : Bool)
  | element (input : String)
deriving DecidableEq

/-- The `INPUT` field of a directive. -/
def InpDirective.inputFile : InpDirective → String
  | .node f _ _ => f
  | .element f => f

/-- The parsed `.INP` configuration and its companion files. -/
structure InpConfig where
  frames : List (String × List ℚ)
  layout : List InpDirective
  datFiles : List (String × List Line)
deriving DecidableEq

/-- Python dictionary lookup where later assignments overwrite earlier
ones. -/
def lookupLast (l : List (String × α)) (k : String) : Option α :=
  l.foldl (fun acc p => if p.1 = k then some p.2 else acc) none

/-- A `.DAT` node line: the regex `\s*\d+(?:\s+real){3}` — an unsigned
integer id and three real literals. -/
def isInpNodeLine (l : Line) : Bool :=
  match l with
  | [Tok.int n, Tok.real _, Tok.real _, Tok.real _] => 0 ≤ n
  | _ => false

/-- A `.DAT` element line: the regex `^ +\d+(?: +\d+){3,4}$` — an element
id and three (triangle) or four (quadrangle) node references, all unsigned
integers. -/
def isInpElemLine (l : Line) : Bool :=
  (l.length = 4 || l.length = 5) && l.all (fun t => (Tok.digit? t).isSome)

/-- The on-disk id of a `.DAT` node line. -/
def inpNodeId (l : Line) : ℕ :=
  ((l.headD (Tok.int 0)).digit?).getD 0

/-- The coordinates of a `.DAT` node line (`node[1:]` as floats). -/
def inpNodeCoords (l : Line) : List ℚ :=
  (l.drop 1).filterMap Tok.toFloat?

/-- The `for i, idx in enumerate(idx_array): id_new[idx] = i+1` loop. -/
def buildIdNewAux (pos : ℕ) (arr : List ℤ) : List ℕ → List ℤ
  | [] => arr
  | idx :: rest => buildIdNewAux (pos + 1) (arr.set idx ((pos : ℤ) + 1)) rest

/-- `max(idx_array)` (0 for an empty list; the source list is never
empty because a node section contains at least one line). -/
def maxIds (ids : List ℕ) : ℕ :=
  ids.foldl max 0

/-- The renumbering table `id_new = -np.ones(max(idx_array)+1)` followed by
`id_new[idx_array[i]] = i+1`: maps an on-disk node id to its 1-based
position in the file's own node order, `-1` for an unused slot. -/
def buildIdNew (ids : List ℕ) : List ℤ :=
  buildIdNewAux 0 (List.replicate (maxIds ids + 1) (-1)) ids

/-- Triangle normalization of `load_INP`: `if len(elem) == 3:
elem.append(elem[0])`. -/
def inpElemRow (refs : List ℤ) : List ℤ :=
  match refs with
  | [a, b, c] => [a, b, c, a]
  | other => other

/-- One `.DAT` element line: drop the element id, remap every node
reference through `id_new` (`id_new[elem[1:]]`; a reference beyond the
table raises `IndexError`), then normalize a triangle. -/
def inpElemLineRow (idNew : List ℤ) (l : Line) : Except Err (List ℤ) :=
  match ((l.drop 1).filterMap Tok.digit?).mapM (fun r => idNew.get? r) with
  | none => .error .indexError
  | some refs => .ok (inpElemRow refs)

/-- The data extracted from one `.DAT` file: node coordinates in file
order, the on-disk node ids in the same order, and the (already remapped
and triangle-normalized) element sections. -/
structure ParsedDat where
  coords : List (List ℚ)
  ids : List ℕ
  elemSections : List (List (List ℤ))
deriving DecidableEq

/-- Parse one `.DAT` file: more than one node section is rejected with the
explicit `IOError`; no node section at all makes `node_section[0]` raise
`IndexError`; then every element section is remapped through the file's
`id_new` table. -/
def parseDat (lines : List Line) : Except Err ParsedDat :=
  match sections isInpNodeLine lines with
  | [] => .error .indexError
  | _ :: _ :: _ => .error .multipleNodeSections
  | [nsec] =>
    let ids := nsec.map inpNodeId
    let idNew := buildIdNew ids
    match (sections isInpElemLine lines).mapM (fun sec => sec.mapM (inpElemLineRow idNew)) with
    | .error e => .error e
    | .ok esecs => .ok ⟨nsec.map inpNodeCoords, ids, esecs⟩

/-- The order in which `mesh_files` (a Python dict) iterates its keys:
first mention in the directive list. -/
def inpFileOrder (layout : List InpDirective) : List String :=
  layout.foldl (fun acc d => if d.inputFile ∈ acc then acc else acc ++ [d.inputFile]) []

/-- The per-file parsing loop of `load_INP`: each referenced `.DAT` file is
opened (`IOError` naming the file when absent) and parsed. -/
def parseFiles (cfg : InpConfig) : Except Err (List (String × ParsedDat)) :=
  (inpFileOrder cfg.layout).mapM (fun f =>
    match cfg.datFiles.lookup f with
    | none => .error (.datFileNotFound (f ++ ".DAT"))
    | some content =>
      match parseDat content with
      | .error e => .error e
      | .ok pd => .ok (f, pd))

/-- The value left in the loop variable `idx` after the parsing loops: the
last on-disk node id of the last parsed file (`none` when no file was
parsed, in which case reading `idx` would raise `NameError`). -/
def staleIdx (pf : List (String × ParsedDat)) : Option ℕ :=
  match pf.getLast? with
  | none => none
  | some (_, pd) => pd.ids.getLast?

/-- `nodes += frames[...]`: numpy broadcast of the frame vector onto the
`(n, 3)` coordinate array — a 3-vector adds componentwise, a 1-vector adds
as a scalar, anything else fails to broadcast. -/
def addFrame (coords : List (List ℚ)) (fr : List ℚ) : Except Err (List (List ℚ)) :=
  match fr with
  | [d] => .ok (coords.map (fun row => row.map (fun x => x + d)))
  | [dx, dy, dz] => .ok (coords.map (fun row => List.zipWith (fun a b => a + b) row [dx, dy, dz]))
  | _ => .error .valueError

/-- `vertices[idx, :] = nodes`: numpy first checks the scalar row index
against the table, then broadcasts the right-hand side onto the single row
`(3,)` — which succeeds only when `nodes` has exactly one row. -/
def npSetRow (vs : List (List ℚ)) (idx : ℕ) (nodes : List (List ℚ)) :
    Except Err (List (List ℚ)) :=
  if idx < vs.length then
    match nodes with
    | [row] => .ok (vs.set idx row)
    | _ => .error .valueError
  else .error .indexError

/-- The mutable locals of the directive-replay loop.  `vertices`, `faces`
and `increment` start unassigned (reading them then raises `NameError`);
`nb_nodes` and `nb_elems` start at 0; `used` holds each file's
`nb_elem_sections_used` cursor (0 when never touched). -/
structure InpState where
  vertices : Option (List (List ℚ))
  nbNodes : ℕ
  increment : Option Bool
  facesAcc : Option (List (List ℤ))
  nbElems : ℕ
  used : List (String × ℕ)
deriving DecidableEq

/-- The state at the top of the replay loop. -/
def initInpState : InpState :=
  ⟨none, 0, none, none, 0, []⟩

/-- Association-list access for the per-file cursors. -/
def usedLookup : List (String × ℕ) → String → Option ℕ
  | [], _ => none
  | (k, v) :: rest, f => if k = f then some v else usedLookup rest f

/-- Drop the binding of one key. -/
def usedErase : List (String × ℕ) → String → List (String × ℕ)
  | [], _ => []
  | (k, v) :: rest, f => if k = f then rest else (k, v) :: usedErase rest f

/-- A file's element-section cursor (0 when never touched). -/
def usedOf (st : InpState) (f : String) : ℕ :=
  (usedLookup st.used f).getD 0

/-- Update a file's element-section cursor. -/
def setUsed (u : List (String × ℕ)) (f : String) (v : ℕ) : List (String × ℕ) :=
  (f, v) :: usedErase u f

/-- One iteration of the directive-replay loop of `load_INP`.

For a NODE directive: translate the file's nodes by the named frame
(`KeyError` = the *missing-frame* failure when undeclared); when
`nb_nodes == 0` initialize the vertex table and set `increment = False`
regardless of the directive's own flag; otherwise either overwrite — and
the source here assigns `vertices[idx, :] = nodes` where `idx` is the
stale loop variable left over from the parsing phase, not the file's
recorded positions — or append the translated copy and set
`increment = True`.

For an ELEMENT directive: take the file's section at the cursor
(`IndexError` when the file has no element section), advance the cursor
and wrap it to 0 once every section has been consumed, add the running
`nb_nodes` offset when `increment` is `True` (reading it before any NODE
directive raises `NameError`), and append the block to the face table. -/
def inpStep (pf : List (String × ParsedDat)) (stale : Option ℕ)
    (frames : List (String × List ℚ)) (st : InpState) :
    InpDirective → Except Err InpState
  | .node file frame inc =>
    match pf.lookup file with
    | none => .error (.keyError file)
    | some pd =>
      match lookupLast frames frame with
      | none => .error (.keyError frame)
      | some fr =>
        match addFrame pd.coords fr with
        | .error e => .error e
        | .ok nodes =>
          if st.nbNodes = 0 then
            .ok { st with vertices := some nodes, nbNodes := nodes.length,
                          increment := some false }
          else if inc = false then
            match st.vertices with
            | none => .error .nameError
            | some vs =>
              match stale with
              | none => .error .nameError
              | some idx =>
                match npSetRow vs idx nodes with
                | .error e => .error e
                | .ok vs' => .ok { st with vertices := some vs', increment := some false }
          else
            match st.vertices with
            | none => .error .nameError
            | some vs =>
              .ok { st with vertices := some (vs ++ nodes),
                            nbNodes := (vs ++ nodes).length, increment := some true }
  | .element file =>
    match pf.lookup file with
    | none => .error (.keyError file)
    | some pd =>
      match pd.elemSections.get? (usedOf st file) with
      | none => .error .indexError
      | some sec =>
        let u' := if usedOf st file + 1 = pd.elemSections.length then 0
                  else usedOf st file + 1
        match st.increment with
        | none => .error .nameError
        | some inc =>
          let elems := if inc then sec.map (fun r => r.map (fun x => x + (st.nbNodes : ℤ)))
                       else sec
          if st.nbElems = 0 then
            .ok { st with used := setUsed st.used file u',
                          facesAcc := some elems, nbElems := elems.length }
          else
            match st.facesAcc with
            | none => .error .nameError
            | some fs =>
              .ok { st with used := setUsed st.used file u',
                            facesAcc := some (fs ++ elems), nbElems := (fs ++ elems).length }

/-- The directive-replay loop. -/
def inpReplay (pf : List (String × ParsedDat)) (stale : Option ℕ)
    (frames : List (String × List ℚ)) (st : InpState) :
    List InpDirective → Except Err InpState
  | [] => .ok st
  | d :: ds =>
    match inpStep pf stale frames st d with
    | .error e => .error e
    | .ok st' => inpReplay pf stale frames st' ds

/-- `load_INP`: parse every referenced `.DAT` file, replay the directive
list, and return `Mesh(vertices, faces - 1, name)`; reading `vertices` or
`faces` at the final construction when no directive assigned them raises
`NameError`. -/
def loadINP (cfg : InpConfig) (name : Option String) : Except Err Mesh :=
  match parseFiles cfg with
  | .error e => .error e
  | .ok pf =>
    match inpReplay pf (staleIdx pf) cfg.frames initInpState cfg.layout with
    | .error e => .error e
    | .ok st =>
      match st.vertices with
      | none => .error .nameError
      | some v =>
        match st.facesAcc with
        | none => .error .nameError
        | some f => .ok ⟨v, subFaces f, name⟩

/-- Observer: the number of ELEMENT directives referencing file `f` in a
directive list. -/
def countElemsOf (f : String) (ds : List InpDirective) : ℕ :=
  (ds.filter (fun d => d = .element f)).length

/-! ## load_mesh : the dispatcher and the format registry -/

/-- The basename characters of a path (`os.path.splitext` only looks at
the part after the last separator): the characters after the last `/`. -/
def basenameChars (s : String) : List Char :=
  (s.toList.reverse.takeWhile (fun c => c ≠ '/')).reverse

/-- Index of the last `.` of a name, if any. -/
def lastDotIdx (cs : List Char) : Option ℕ :=
  ((List.range cs.length).filter (fun i => cs.getD i ' ' = '.')).getLast?

/-- The extension part produced by `os.path.splitext`, dot included: the
suffix from the last dot, unless every character before that dot is itself
a dot (so a leading-dot name like `.bashrc` has no extension). -/
def extChars (cs : List Char) : List Char :=
  match lastDotIdx cs with
  | none => []
  | some i => if (List.range i).all (fun j => cs.getD j ' ' = '.') then [] else cs.drop i

/-- Python `str.strip('.')`: remove leading and trailing dots. -/
def stripDots (cs : List Char) : List Char :=
  ((cs.dropWhile (fun c => c = '.')).reverse.dropWhile (fun c => c = '.')).reverse

/-- The format keyword inferred from a file name when the `file_format`
argument is omitted: `os.path.splitext(filename)[1].strip('.')`. -/
def fileFormatOf (fname : String) : String :=
  String.mk (stripDots (extChars (basenameChars fname)))

/-- The decoder functions that `extension_dict` maps keywords to. -/
inductive Loader where
  | mar | gdf | inp | diodoreDat | hst | nat | msh | rad
  | stl | vtu | vtp | vtk | tec | med | wrl | nem
deriving DecidableEq

/-- The `extension_dict` registry: keyword to decoder, aliases mapping to
one decoder, case-sensitive exact match. -/
def extensionDict (kw : String) : Option Loader :=
  match kw with
  | "dat" => some .mar
  | "mar" => some .mar
  | "nemoh" => some .mar
  | "wamit" => some .gdf
  | "gdf" => some .gdf
  | "diodore-inp" => some .inp
  | "inp" => some .inp
  | "diodore-dat" => some .diodoreDat
  | "hydrostar" => some .hst
  | "hst" => some .hst
  | "natural" => some .nat
  | "nat" => some .nat
  | "gmsh" => some .msh
  | "msh" => some .msh
  | "rad" => some .rad
  | "radioss" => some .rad
  | "stl" => some .stl
  | "vtu" => some .vtu
  | "vtp" => some .vtp
  | "paraview-legacy" => some .vtk
  | "vtk" => some .vtk
  | "tecplot" => some .tec
  | "tec" => some .tec
  | "med" => some .med
  | "salome" => some .med
  | "vrml" => some .wrl
  | "wrl" => some .wrl
  | "nem" => some .nem
  | "nemoh_mesh" => some .nem
  | _ => none

/-- The content of one on-disk file, presented at the granularities the
text decoders consume it at: the whitespace-tokenized lines, and the
results of the TECPLOT and GMSH regex searches over the same text (a real
file determines all three views; the model carries them jointly). -/
structure FileData where
  lines : List Line := []
  tecView : TecData := ⟨none⟩
  mshView : MshData := ⟨none, none⟩
deriving DecidableEq

deriving instance DecidableEq for Except

/-- The outcome of dispatching: either a modelled decoder ran, or the
selected decoder is one of the out-of-scope external-library bindings
(STL/VTK family, MED, VRML) or the multi-file composite decoder, which is
modelled separately on its structured configuration (`loadINP`). -/
inductive LoadOutcome where
  | result (r : Except Err LoadedMesh)
  | delegated (l : Loader)
deriving DecidableEq

/-- Invoke the decoder selected from the registry on the file content. -/
def runLoader (l : Loader) (fd : FileData) (name : Option String) : LoadOutcome :=
  match l with
  | .mar => .result (loadMAR fd.lines name)
  | .gdf => .result ((loadGDF fd.lines name).map .flat)
  | .hst => .result ((loadHST fd.lines name).map .flat)
  | .nat => .result ((loadNAT fd.lines name).map .flat)
  | .rad => .result ((loadRAD fd.lines name).map .flat)
  | .nem => .result ((loadNEM fd.lines name).map .flat)
  | .tec => .result ((loadTEC fd.tecView name).map .flat)
  | .msh => .result ((loadMSH fd.mshView name).map .flat)
  | .diodoreDat => .result (.error .notImplementedError)
  | .inp => .delegated .inp
  | .stl => .delegated .stl
  | .vtu => .delegated .vtu
  | .vtp => .delegated .vtp
  | .vtk => .delegated .vtk
  | .med => .delegated .med
  | .wrl => .delegated .wrl

/-- `load_mesh(filename, file_format, name)`: check the file exists
(`IOError` naming the path otherwise), resolve the keyword (explicit
argument, or extension inferred from the name), look it up in
`extension_dict` (`IOError` naming the keyword when unknown), and invoke
the decoder.  The filesystem is a pure map from path to content. -/
def loadMesh (fs : String → Option FileData) (fname : String)
    (fmt : Option String) (name : Option String) : LoadOutcome :=
  match fs fname with
  | none => .result (.error (.fileNotFound fname))
  | some fd =>
    let kw := match fmt with
      | some k => k
      | none => fileFormatOf fname
    match extensionDict kw with
    | none => .result (.error (.extensionUnknown kw))
    | some l => runLoader l fd name

/-! ## Concrete INP configurations used as evaluation points -/

/-- A DIODORE configuration with one NODE directive and three ELEMENT
directives all naming file `A`, whose `.DAT` content holds one node and
two element sections separated by a non-element line. -/
def inpCfg9 : InpConfig :=
  ⟨[("F", [0, 0, 0])],
   [.node "A" "F" false, .element "A", .element "A", .element "A"],
   [("A", [[Tok.int 1, Tok.real 2, Tok.real 0, Tok.real 0],
           [Tok.int 1, Tok.int 1, Tok.int 1, Tok.int 1],
           [Tok.str "SECT"],
           [Tok.int 2, Tok.int 1, Tok.int 1, Tok.int 1]])]⟩

/-- The parsed form of `inpCfg9`'s single `.DAT` file. -/
def inpPd9 : ParsedDat :=
  ⟨[[2, 0, 0]], [1], [[[1, 1, 1, 1]], [[1, 1, 1, 1]]]⟩

/-- The replay state reached by `inpCfg9`'s directive list. -/
def inpSt9 : InpState :=
  ⟨some [[2 + 0, 0 + 0, 0 + 0]], 1, some false,
   some [[1, 1, 1, 1], [1, 1, 1, 1], [1, 1, 1, 1]], 3, [("A", 1)]⟩

/-- A one-file parsed-data table used to evaluate single replay steps. -/
def inpPfE : List (String × ParsedDat) :=
  [("A", ⟨[[1, 0, 0]], [1], [[[1, 1, 1, 1]]]⟩)]

/-- A mid-replay state: one node row, increment on, one face row. -/
def inpStE : InpState :=
  ⟨some [[1, 0, 0]], 1, some true, some [[7, 7, 7, 7]], 1, []⟩

/-- The state after one ELEMENT step on `inpStE` over `inpPfE`. -/
def inpStE1 : InpState :=
  ⟨some [[1, 0, 0]], 1, some true, some [[7, 7, 7, 7], [2, 2, 2, 2]], 2, [("A", 0)]⟩

/-- The state after a table-initializing NODE step over `inpPfE`. -/
def inpStN1 : InpState :=
  ⟨some [[1 + 0, 0 + 0, 0 + 0]], 1, some false, none, 0, []⟩

/-! ## Helper lemmas -/

/-- `mapM` over `Option` fails as soon as one element fails. -/
theorem mapM_opt_none {α β : Type} (f : α → Option β) (ts : List α) (t : α)
    (hmem : t ∈ ts) (hf : f t = none) : ts.mapM f = none := by
  induction ts with
  | nil => cases hmem
  | cons a as ih =>
    rw [List.mapM_cons]
    rcases List.mem_cons.mp hmem with h | h
    · rw [← h, hf]; rfl
    · cases hfa : f a with
      | none => rfl
      | some b => rw [ih h]; rfl

/-- `npMatrix` is the identity on the rows when it succeeds. -/
theorem npMatrix_ok {α : Type} {rows v : List (List α)} (h : npMatrix rows = .ok v) :
    v = rows := by
  cases rows with
  | nil =>
    simp only [npMatrix] at h
    cases h; rfl
  | cons r rest =>
    simp only [npMatrix] at h
    split at h
    · cases h; rfl
    · cases h

/-- `floatsOf` fails when the underlying conversion fails. -/
theorem floatsOf_err {ts : List Tok} (h : ts.mapM Tok.toFloat? = none) :
    floatsOf ts = .error .valueError := by
  unfold floatsOf
  rw [h]

/-- `intsOf` fails when the underlying conversion fails. -/
theorem intsOf_err {ts : List Tok} (h : ts.mapM Tok.toInt? = none) :
    intsOf ts = .error .valueError := by
  unfold intsOf
  rw [h]

/-! ## Claim C1 -/

/-- Claim C1 (refuted; the code is the slip, the claim states the evident
intent): replaying a later non-incrementing NODE directive is supposed to
overwrite the running vertex table at exactly the positions recorded in
the referenced data file's own node ordering.  The source instead executes
`vertices[idx, :] = nodes.copy()` where `idx` is the stale loop variable
left over from the parsing phase — the last on-disk node id of the last
parsed file (the surrounding block even carries a `FIXME` comment calling
it buggy).  On the configuration below (one data file `A` with two nodes,
ids 1 and 2, layout `NODE A (frame F); NODE A (frame G, INCREMENT=NO)`)
the claim requires rows 0 and 1 to receive the `G`-translated coordinates;
the code instead indexes row `idx = 2` of the 2-row table and dies with
`IndexError` (with other id choices it mis-writes a single wrong row or
fails to broadcast). -/
theorem C1_inp_overwrite_stale_index :
    loadINP ⟨[("F", [0, 0, 0]), ("G", [1, 1, 1])],
      [.node "A" "F" false, .node "A" "G" false],
      [("A", [[Tok.int 1, Tok.real 1, Tok.real 0, Tok.real 0],
              [Tok.int 2, Tok.real 0, Tok.real 1, Tok.real 0],
              [Tok.int 1, Tok.int 1, Tok.int 2, Tok.int 1]])]⟩ none
      = .error .indexError := by decide

/-! ## Claim C4 -/

/-- Claim C4: in every decoder path that accepts a 3-vertex source record
— the GMSH triangle grammar (`mshTriFace`, applied to element lines with
at least the guaranteed three tokens), the composite decoder's element
rows (`inpElemRow`), and the VTK cell dump (`dumpVtkFace`) — the resulting
face row has its fourth entry equal to its first (quad-with-degenerate-
corner padding). -/
theorem C4_triangle_padding :
    (∀ xs : List ℤ, 3 ≤ xs.length → ∃ a b c, mshTriFace xs = [a, b, c, a]) ∧
    (∀ refs : List ℤ, refs.length = 3 → ∃ a b c, inpElemRow refs = [a, b, c, a]) ∧
    (∀ cell : List ℤ, cell.length = 3 → ∃ a b c, dumpVtkFace cell = .ok [a, b, c, a]) := by
  refine ⟨?_, ?_, ?_⟩
  · intro xs hlen
    have ht : (xs.drop (xs.length - 3)).length = 3 := by
      rw [List.length_drop]; omega
    obtain ⟨a, b, c, habc⟩ := List.length_eq_three.mp ht
    exact ⟨a, b, c, by simp [mshTriFace, habc]⟩
  · intro refs hlen
    obtain ⟨a, b, c, habc⟩ := List.length_eq_three.mp hlen
    exact ⟨a, b, c, by simp [inpElemRow, habc]⟩
  · intro cell hlen
    obtain ⟨a, b, c, habc⟩ := List.length_eq_three.mp hlen
    refine ⟨a, b, c, ?_⟩
    subst habc
    rfl

/-- Witness for C4 at the concrete record `[1, 2, 3]`. -/
theorem C4_triangle_padding_witness :
    (∃ a b c, mshTriFace [1, 2, 3] = [a, b, c, a]) ∧
    (∃ a b c, inpElemRow [1, 2, 3] = [a, b, c, a]) ∧
    (∃ a b c, dumpVtkFace [1, 2, 3] = .ok [a, b, c, a]) :=
  ⟨C4_triangle_padding.1 [1, 2, 3] (by decide),
   C4_triangle_padding.2.1 [1, 2, 3] (by decide),
   C4_triangle_padding.2.2 [1, 2, 3] (by decide)⟩

/-! ## Claim C7 -/

/-- Claim C7: for a path that is not on disk, `load_mesh` fails with the
file-not-found error regardless of the format argument (in particular no
registry lookup outcome can change this); for an existing path whose
resolved keyword is not in the registry it fails with the
unsupported-format error carrying that keyword. -/
theorem C7_dispatcher_errors :
    (∀ fs fname fmt name, fs fname = none →
        loadMesh fs fname fmt name = .result (.error (.fileNotFound fname))) ∧
    (∀ fs fname fd fmt name, fs fname = some fd →
        extensionDict (fmt.getD (fileFormatOf fname)) = none →
        loadMesh fs fname fmt name
          = .result (.error (.extensionUnknown (fmt.getD (fileFormatOf fname))))) := by
  constructor
  · intro fs fname fmt name h
    simp [loadMesh, h]
  · intro fs fname fd fmt name h h2
    cases fmt with
    | none => simp [loadMesh, h]; simp [Option.getD] at h2; simp [h2]
    | some k => simp [loadMesh, h]; simp [Option.getD] at h2; simp [h2]

/-- Witness for C7: a missing path fails with file-not-found, and an
existing `x.foo` fails with unsupported-format naming `foo`. -/
theorem C7_dispatcher_errors_witness :
    loadMesh (fun _ => none) "/nonexistent" none none
      = .result (.error (.fileNotFound "/nonexistent")) ∧
    loadMesh (fun s => if s = "x.foo" then some {} else none) "x.foo" none none
      = .result (.error (.extensionUnknown "foo")) := by
  constructor
  · exact C7_dispatcher_errors.1 (fun _ => none) "/nonexistent" none none rfl
  · have h := C7_dispatcher_errors.2 (fun s => if s = "x.foo" then some {} else none)
      "x.foo" {} none none (by decide) (by decide)
    exact h

/-! ## Claim C8 -/

/-- Claim C8: the registry maps the vendor aliases to the decoders of the
equivalent extensions (`wamit`/`gdf`, and `mar`/`dat`/`nemoh`), and for
any existing file, calling the dispatcher with an explicit keyword that
resolves to the same decoder as the inferred extension produces the
identical outcome (same decoder on the same content, hence identical
vertex and face tables). -/
theorem C8_alias_equivalence :
    extensionDict "wamit" = extensionDict "gdf" ∧
    extensionDict "mar" = extensionDict "dat" ∧
    extensionDict "nemoh" = extensionDict "dat" ∧
    (∀ fs fname fd kw l name, fs fname = some fd →
        extensionDict kw = some l → extensionDict (fileFormatOf fname) = some l →
        loadMesh fs fname (some kw) name = loadMesh fs fname none name) := by
  refine ⟨rfl, rfl, rfl, ?_⟩
  intro fs fname fd kw l name h h2 h3
  simp only [loadMesh, h, h2, h3]

/-- Witness for C8: loading `mesh.gdf` with the explicit `wamit` keyword
equals loading it with the inferred `gdf` keyword. -/
theorem C8_alias_equivalence_witness :
    loadMesh (fun s => if s = "mesh.gdf" then some { lines := [[Tok.str "h"]] } else none)
        "mesh.gdf" (some "wamit") none
      = loadMesh (fun s => if s = "mesh.gdf" then some { lines := [[Tok.str "h"]] } else none)
        "mesh.gdf" none none :=
  C8_alias_equivalence.2.2.2
    (fun s => if s = "mesh.gdf" then some { lines := [[Tok.str "h"]] } else none)
    "mesh.gdf" { lines := [[Tok.str "h"]] } "wamit" .gdf none (by decide) (by decide) (by decide)

/-! ## Claim C2 -/

/-- Claim C2 counterexample: the GMSH-legacy decoder does not fail when
the expected element-record region is empty.  On a file whose `$Nodes`
block holds one node and whose `$Elements` block contains no line matching
the triangle or quadrangle grammar (here: no element lines at all between
the count and the terminator), the decoder returns a mesh built from the
empty face region instead of raising any error. -/
theorem C2_counterexample :
    loadMSH ⟨some (1, [Tok.int 1, Tok.real 0, Tok.real 0, Tok.real 0]), some (0, [])⟩ none
      = .ok ⟨[[0, 0, 0]], [], none⟩ ∧
    ∀ e, loadMSH ⟨some (1, [Tok.int 1, Tok.real 0, Tok.real 0, Tok.real 0]), some (0, [])⟩ none
      ≠ .error e := by
  refine ⟨by decide, ?_⟩
  intro e h
  have h0 : loadMSH ⟨some (1, [Tok.int 1, Tok.real 0, Tok.real 0, Tok.real 0]), some (0, [])⟩ none
      = .ok ⟨[[0, 0, 0]], [], none⟩ := by decide
  rw [h0] at h
  exact Except.noConfusion h

/-- Claim C2 (amended): each modelled text decoder fails when its expected
region pattern is not found and when a token fails its numeric conversion
— with two exceptions where a missing region does *not* fail: the
GMSH-legacy decoder, whose node and element *blocks* are present, returns
a mesh with an empty face table when no line of the element block matches
the triangle or quadrangle grammar; and the HydroSTAR decoder, when no
line matches the node-section pattern but one element section is present,
returns a mesh with an empty vertex table (the vertex accumulator keeps
its initial empty list).  The taxonomy names map to the host exceptions: a
failed region search surfaces as `attributeError` (or, for HydroSTAR with
no element section, as the `typeError` of `faces - 1` on the initial
list), a failed conversion as `valueError`.  Conjuncts: GMSH missing node
block; GMSH missing element block; GMSH unconvertible node token; RADIOSS
missing node section; RADIOSS missing 3-line element section; TECPLOT
unmatched zone pattern; HydroSTAR no element section; natural-list
unconvertible count token; Nemoh-mesh-tool unconvertible count line;
Nemoh-native malformed two-token header; WAMIT-GDF unconvertible face
count; HydroSTAR missing node section with one element section present
(the second exception, returning the empty-vertex mesh). -/
theorem C2_amended :
    (∀ (d : MshData) name, d.nodes = none → loadMSH d name = .error .attributeError) ∧
    (∀ (d : MshData) name, d.elts = none → loadMSH d name = .error .attributeError) ∧
    (∀ (d : MshData) name c toks s, d.nodes = some (c, toks) → d.elts ≠ none →
        Tok.str s ∈ toks → loadMSH d name = .error .valueError) ∧
    (∀ lines name, sections isRadNodeLine lines = [] →
        loadRAD lines name = .error .attributeError) ∧
    (∀ lines name, (sections isRadElemLine lines).find? (fun s => 3 ≤ s.length) = none →
        loadRAD lines name = .error .attributeError) ∧
    (∀ (d : TecData) name, d.zone = none → loadTEC d name = .error .attributeError) ∧
    (∀ lines name, (sections isHstNodeLine lines).length ≤ 1 →
        sections isHstElemLine lines = [] → loadHST lines name = .error .typeError) ∧
    (∀ lines name t, t ∈ lines.getD 1 ([] : Line) → t.toInt? = none →
        loadNAT lines name = .error .valueError) ∧
    (∀ lines name, nemLineInt (lines.getD 0 []) = none →
        loadNEM lines name = .error .valueError) ∧
    (∀ lines name, (lines.headD ([] : Line)).length ≠ 2 →
        loadMAR lines name = .error .valueError) ∧
    (∀ lines name t, ((lines.getD 3 ([] : Line)).head?) = some t → t.toInt? = none →
        2 ≤ (lines.getD 1 ([] : Line)).length → 2 ≤ (lines.getD 2 ([] : Line)).length →
        loadGDF lines name = .error .valueError) ∧
    (∀ lines name esec, sections isHstNodeLine lines = [] →
        sections isHstElemLine lines = [esec] →
        loadHST lines name = .ok ⟨[], subFaces (esec.map hstFaceRow), name⟩) := by
  refine ⟨?_, ?_, ?_, ?_, ?_, ?_, ?_, ?_, ?_, ?_, ?_, ?_⟩
  · intro d name h
    simp [loadMSH, mshParse, h]
  · intro d name h
    cases hn : d.nodes with
    | none => simp [loadMSH, mshParse, hn]
    | some p =>
      obtain ⟨c, toks⟩ := p
      simp [loadMSH, mshParse, hn, h]
  · intro d name c toks s hn he hmem
    cases he2 : d.elts with
    | none => exact absurd he2 he
    | some q =>
      obtain ⟨ne, elines⟩ := q
      have hf : toks.mapM Tok.toFloat? = none :=
        mapM_opt_none Tok.toFloat? toks (Tok.str s) hmem rfl
      unfold loadMSH mshParse
      rw [hn, he2]
      simp [floatsOf_err hf]
  · intro lines name h
    simp [loadRAD, radParse, h]
  · intro lines name h
    cases hn : (sections isRadNodeLine lines).head? with
    | none => simp [loadRAD, radParse, hn]
    | some s => simp [loadRAD, radParse, hn, h]
  · intro d name h
    simp [loadTEC, tecParse, h]
  · intro lines name h1 h2
    rcases hs : sections isHstNodeLine lines with _ | ⟨a, _ | ⟨b, t⟩⟩
    · simp [loadHST, hstParse, hs, h2]
    · simp [loadHST, hstParse, hs, h2]
    · rw [hs] at h1
      simp at h1
  · intro lines name t hmem ht
    have hf : (lines.getD 1 ([] : Line)).mapM Tok.toInt? = none :=
      mapM_opt_none Tok.toInt? _ t hmem ht
    unfold loadNAT natParse
    rw [intsOf_err hf]
  · intro lines name h
    unfold loadNEM nemParse
    rw [h]
  · intro lines name h
    unfold loadMAR marParse
    rcases hl : lines.headD ([] : Line) with _ | ⟨a, _ | ⟨b, _ | ⟨c, r⟩⟩⟩
    · rfl
    · rfl
    · rw [hl] at h
      simp at h
    · rfl
  · intro lines name t h1 h2 h3 h4
    unfold loadGDF gdfNf
    rw [if_neg (by omega), if_neg (by omega), h1]
    simp [h2]
  · intro lines name esec h1 h2
    simp [loadHST, hstParse, h1, h2]

/-- Witness for C2 (amended): one concrete failing file per conjunct, and
the empty-vertex mesh of the HydroSTAR exception. -/
theorem C2_amended_witness :
    loadMSH ⟨none, none⟩ none = .error .attributeError ∧
    loadMSH ⟨some (0, []), none⟩ none = .error .attributeError ∧
    loadMSH ⟨some (0, [Tok.str "x"]), some (0, [])⟩ none = .error .valueError ∧
    loadRAD [] none = .error .attributeError ∧
    loadRAD [[Tok.int 1, Tok.real 0, Tok.real 0, Tok.real 0]] none = .error .attributeError ∧
    loadTEC ⟨none⟩ none = .error .attributeError ∧
    loadHST [] none = .error .typeError ∧
    loadNAT [[], [Tok.str "n"]] none = .error .valueError ∧
    loadNEM [] none = .error .valueError ∧
    loadMAR [] none = .error .valueError ∧
    loadGDF [[], [Tok.int 1, Tok.int 1], [Tok.int 0, Tok.int 0], [Tok.str "n"]] none
      = .error .valueError ∧
    loadHST [[Tok.int 1, Tok.int 2, Tok.int 3, Tok.int 4]] none
      = .ok ⟨[], [[0, 1, 2, 3]], none⟩ :=
  ⟨C2_amended.1 ⟨none, none⟩ none rfl,
   C2_amended.2.1 ⟨some (0, []), none⟩ none rfl,
   C2_amended.2.2.1 ⟨some (0, [Tok.str "x"]), some (0, [])⟩ none 0 [Tok.str "x"] "x" rfl
     (by decide) (by decide),
   C2_amended.2.2.2.1 [] none (by decide),
   C2_amended.2.2.2.2.1 [[Tok.int 1, Tok.real 0, Tok.real 0, Tok.real 0]] none (by decide),
   C2_amended.2.2.2.2.2.1 ⟨none⟩ none rfl,
   C2_amended.2.2.2.2.2.2.1 [] none (by decide) (by decide),
   C2_amended.2.2.2.2.2.2.2.1 [[], [Tok.str "n"]] none (Tok.str "n") (by decide) (by decide),
   C2_amended.2.2.2.2.2.2.2.2.1 [] none (by decide),
   C2_amended.2.2.2.2.2.2.2.2.2.1 [] none (by decide),
   C2_amended.2.2.2.2.2.2.2.2.2.2.1 [[], [Tok.int 1, Tok.int 1], [Tok.int 0, Tok.int 0], [Tok.str "n"]]
     none (Tok.str "n") (by decide) (by decide) (by decide) (by decide),
   C2_amended.2.2.2.2.2.2.2.2.2.2.2 [[Tok.int 1, Tok.int 2, Tok.int 3, Tok.int 4]] none
     [[Tok.int 1, Tok.int 2, Tok.int 3, Tok.int 4]] (by decide) (by decide)⟩

/-! ## Claim C6 -/

/-- The vertex loop consumes exactly the lines before the first sentinel
line. -/
theorem marVertLoop_count : ∀ (ls : List Line) (vs : List (List ℚ)) (rest : List Line),
    marVertLoop ls = .ok (vs, rest) →
    vs.length = (ls.takeWhile (fun l => decide (l.head? ≠ some (Tok.int 0)))).length := by
  intro ls
  induction ls with
  | nil => intro vs rest h; cases h
  | cons l t ih =>
    intro vs rest h
    unfold marVertLoop at h
    split at h
    next heq => simp at h
    next tok heq =>
      split at h
      next htok =>
        simp only [Except.ok.injEq, Prod.mk.injEq] at h
        obtain ⟨h1, _⟩ := h
        rw [← h1]
        simp [List.takeWhile_cons, heq, htok]
      next htok =>
        split at h
        next e heq2 => simp at h
        next row heq2 =>
          split at h
          next e heq3 => simp at h
          next rs r2 heq3 =>
            simp only [Except.ok.injEq, Prod.mk.injEq] at h
            obtain ⟨h1, _⟩ := h
            rw [← h1]
            have hrec := ih rs r2 heq3
            simp [List.takeWhile_cons, heq, htok, hrec]

/-- Inversion of a successful `marParse`: the header had exactly two
tokens with the returned flag second, and the returned vertex table is
exactly what the vertex loop produced. -/
theorem marParse_inv {lines : List Line} {t : Tok} {v : List (List ℚ)} {f : List (List ℤ)}
    (h : marParse lines = .ok (t, v, f)) :
    ∃ a rest, lines.headD ([] : Line) = [a, t] ∧
      marVertLoop (lines.drop 1) = .ok (v, rest) := by
  unfold marParse at h
  split at h
  next a b heq =>
    split at h
    next e heq2 => simp at h
    next vrows rest1 heq2 =>
      split at h
      next e heq3 => simp at h
      next v2 heq3 =>
        split at h
        next e heq4 => simp at h
        next frows rest2 heq4 =>
          split at h
          next e heq5 => simp at h
          next f2 heq5 =>
            simp only [Except.ok.injEq, Prod.mk.injEq] at h
            obtain ⟨hb, hv2, hf2⟩ := h
            refine ⟨a, rest1, by rw [heq, hb], ?_⟩
            have hvv : vrows = v := by rw [← npMatrix_ok heq3, hv2]
            rw [heq2, hvv]
  next x hne => simp at h

/-- Claim C6: when a Nemoh-native file decodes successfully and its
header's symmetry flag parses to 1, the result is a half mesh wrapped in
the reflection-symmetry type with plane tag `xOz`, and the half mesh's
vertex table has exactly one row per vertex line before the `0` sentinel;
when the flag parses to any other value a plain mesh is returned. -/
theorem C6_mar_symmetry :
    ∀ lines name r, loadMAR lines name = .ok r →
      (marFlagVal lines = some 1 → ∃ half nm, r = .reflSym half .xOz nm ∧
         half.vertices.length = marVertexLineCount lines) ∧
      (∀ k, marFlagVal lines = some k → k ≠ 1 → ∃ m, r = .flat m) := by
  intro lines name r h
  unfold loadMAR at h
  split at h
  next e heq => simp at h
  next flagTok v f heq =>
    obtain ⟨a, rest, hl, hv⟩ := marParse_inv heq
    have hfv : marFlagVal lines = flagTok.toInt? := by
      unfold marFlagVal
      rw [hl]
    split at h
    next hti => simp at h
    next k hti =>
      split at h
      next hk =>
        subst hk
        constructor
        · intro _
          split at h
          next =>
            simp only [Except.ok.injEq] at h
            refine ⟨⟨v, subFaces f, none⟩, none, h.symm, ?_⟩
            unfold marVertexLineCount
            exact marVertLoop_count _ _ _ hv
          next nm =>
            simp only [Except.ok.injEq] at h
            refine ⟨⟨v, subFaces f, some ("half_of_" ++ nm)⟩, some nm, h.symm, ?_⟩
            unfold marVertexLineCount
            exact marVertLoop_count _ _ _ hv
        · intro k2 hk2 hk2ne
          exact absurd (Option.some.inj ((hfv.symm.trans hk2).symm.trans hti)) hk2ne
      next hk =>
        simp only [Except.ok.injEq] at h
        constructor
        · intro h1
          exact absurd (Option.some.inj ((hfv.symm.trans h1).symm.trans hti)).symm hk
        · intro k2 hk2 hk2ne
          exact ⟨⟨v, subFaces f, name⟩, h.symm⟩

/-- Witness for C6: the spec's concrete scenario — header `0 1`, four
vertex lines, a sentinel, four face lines, a sentinel. -/
theorem C6_mar_symmetry_witness :
    ∃ half nm,
      (LoadedMesh.reflSym
        ⟨[[0, 0, 0], [1, 0, 0], [1, 1, 0], [0, 1, 0]],
         [[0, 1, 2, 3], [1, 2, 3, 0], [2, 3, 0, 1], [3, 0, 1, 2]], none⟩ .xOz none)
        = .reflSym half .xOz nm ∧
      half.vertices.length = marVertexLineCount
        [[Tok.int 0, Tok.int 1],
         [Tok.int 1, Tok.real 0, Tok.real 0, Tok.real 0],
         [Tok.int 2, Tok.real 1, Tok.real 0, Tok.real 0],
         [Tok.int 3, Tok.real 1, Tok.real 1, Tok.real 0],
         [Tok.int 4, Tok.real 0, Tok.real 1, Tok.real 0],
         [Tok.int 0, Tok.int 0, Tok.int 0, Tok.int 0],
         [Tok.int 1, Tok.int 2, Tok.int 3, Tok.int 4],
         [Tok.int 2, Tok.int 3, Tok.int 4, Tok.int 1],
         [Tok.int 3, Tok.int 4, Tok.int 1, Tok.int 2],
         [Tok.int 4, Tok.int 1, Tok.int 2, Tok.int 3],
         [Tok.int 0, Tok.int 0, Tok.int 0, Tok.int 0]] :=
  (C6_mar_symmetry
    [[Tok.int 0, Tok.int 1],
     [Tok.int 1, Tok.real 0, Tok.real 0, Tok.real 0],
     [Tok.int 2, Tok.real 1, Tok.real 0, Tok.real 0],
     [Tok.int 3, Tok.real 1, Tok.real 1, Tok.real 0],
     [Tok.int 4, Tok.real 0, Tok.real 1, Tok.real 0],
     [Tok.int 0, Tok.int 0, Tok.int 0, Tok.int 0],
     [Tok.int 1, Tok.int 2, Tok.int 3, Tok.int 4],
     [Tok.int 2, Tok.int 3, Tok.int 4, Tok.int 1],
     [Tok.int 3, Tok.int 4, Tok.int 1, Tok.int 2],
     [Tok.int 4, Tok.int 1, Tok.int 2, Tok.int 3],
     [Tok.int 0, Tok.int 0, Tok.int 0, Tok.int 0]] none _ (by decide)).1 (by decide)

/-! ## Claim C10 -/

/-- With an empty directive list the replay loop never runs and the final
mesh construction reads the never-assigned `vertices`, raising
`NameError`. -/
theorem loadINP_empty (cfg : InpConfig) (name : Option String) (h : cfg.layout = []) :
    loadINP cfg name = .error .nameError := by
  have hpf : parseFiles cfg = .ok [] := by
    unfold parseFiles inpFileOrder
    rw [h]
    rfl
  unfold loadINP
  rw [hpf, h]
  rfl

/-- Replaying an ELEMENT directive from the initial state fails: either
the file lookup fails, or the file has no element section (`IndexError`),
or the never-assigned `increment` is read (`NameError`). -/
theorem inpStep_element_init (pf : List (String × ParsedDat)) (stale : Option ℕ)
    (frames : List (String × List ℚ)) (f : String) :
    ∃ e, inpStep pf stale frames initInpState (.element f) = .error e := by
  cases hl : pf.lookup f with
  | none => exact ⟨.keyError f, by simp [inpStep, hl]⟩
  | some pd =>
    cases hg : pd.elemSections.get? (usedOf initInpState f) with
    | none =>
      refine ⟨.indexError, ?_⟩
      rw [List.get?_eq_getElem?] at hg
      simp [inpStep, hl, hg]
    | some sec =>
      refine ⟨.nameError, ?_⟩
      rw [List.get?_eq_getElem?] at hg
      have hg0 : pd.elemSections[(0 : ℕ)]? = some sec := hg
      simp [inpStep, hl, hg0, initInpState, usedOf, usedLookup]

/-- A failing first step fails the whole replay. -/
theorem inpReplay_cons_error {pf : List (String × ParsedDat)} {stale : Option ℕ}
    {frames : List (String × List ℚ)} {st : InpState} {d : InpDirective}
    {ds : List InpDirective} {e : Err}
    (h : inpStep pf stale frames st d = .error e) :
    inpReplay pf stale frames st (d :: ds) = .error e := by
  unfold inpReplay
  rw [h]

/-- Claim C10 counterexample: a configuration whose directive list begins
with an ELEMENT directive does not always fail with the uninitialized-
variable error — when the referenced data file is absent the call fails
first, inside the parsing phase, with the (in-taxonomy) file-not-found
error. -/
theorem C10_counterexample :
    loadINP ⟨[], [.element "A"], []⟩ none = .error (.datFileNotFound "A.DAT") ∧
    Err.datFileNotFound "A.DAT" ≠ Err.nameError :=
  ⟨by decide, by decide⟩

/-- Claim C10 (amended): `load_INP` returns a mesh only if the directive
list is non-empty and starts with a NODE directive.  A configuration with
an empty directive list always fails with the uninitialized-variable
(`NameError`) failure at the final mesh construction; a configuration
starting with an ELEMENT directive always fails, and fails specifically
with the uninitialized-variable failure (reading `increment` in the replay
loop) whenever its data files parse successfully and the referenced file
has at least one element section — otherwise the parse-phase or
section-indexing error fires first. -/
theorem C10_amended :
    (∀ cfg name m, loadINP cfg name = .ok m →
       cfg.layout ≠ [] ∧ ∃ a fr i rest, cfg.layout = .node a fr i :: rest) ∧
    (∀ cfg name, cfg.layout = [] → loadINP cfg name = .error .nameError) ∧
    (∀ cfg name f rest pf pd, cfg.layout = .element f :: rest →
       parseFiles cfg = .ok pf → pf.lookup f = some pd → pd.elemSections ≠ [] →
       loadINP cfg name = .error .nameError) := by
  refine ⟨?_, ?_, ?_⟩
  · intro cfg name m h
    rcases hlay : cfg.layout with _ | ⟨d, rest⟩
    · rw [loadINP_empty cfg name hlay] at h
      cases h
    · cases d with
      | node a fr i =>
        exact ⟨by simp, a, fr, i, rest, rfl⟩
      | element f =>
        exfalso
        unfold loadINP at h
        split at h
        next e heq => cases h
        next pf heq =>
          rw [hlay] at h
          obtain ⟨e, hstep⟩ := inpStep_element_init pf (staleIdx pf) cfg.frames f
          rw [inpReplay_cons_error hstep] at h
          simp at h
  · intro cfg name h
    exact loadINP_empty cfg name h
  · intro cfg name f rest pf pd hlay hpf hpd hsec
    obtain ⟨s, ss, hs⟩ : ∃ s ss, pd.elemSections = s :: ss := by
      cases hs : pd.elemSections with
      | nil => exact absurd hs hsec
      | cons s ss => exact ⟨s, ss, rfl⟩
    have hstep : inpStep pf (staleIdx pf) cfg.frames initInpState (.element f)
        = .error .nameError := by
      simp [inpStep, hpd, hs, initInpState, usedOf, usedLookup]
    simp [loadINP, hpf, hlay, inpReplay_cons_error hstep]

/-- Witness for C10 (amended): a NODE-first configuration that does return
a mesh, the empty configuration, and an ELEMENT-first configuration with a
present, parseable data file. -/
theorem C10_amended_witness :
    ((⟨[("FR", [0, 0, 0])], [.node "B" "FR" false, .element "B"],
        [("B", [[Tok.int 1, Tok.real 5, Tok.real 0, Tok.real 0],
                [Tok.int 1, Tok.int 1, Tok.int 1, Tok.int 1]])]⟩ : InpConfig).layout ≠ [] ∧
      ∃ a fr i rest, (⟨[("FR", [0, 0, 0])], [.node "B" "FR" false, .element "B"],
        [("B", [[Tok.int 1, Tok.real 5, Tok.real 0, Tok.real 0],
                [Tok.int 1, Tok.int 1, Tok.int 1, Tok.int 1]])]⟩ : InpConfig).layout
          = .node a fr i :: rest) ∧
    loadINP ⟨[], [], []⟩ none = .error .nameError ∧
    loadINP ⟨[], [.element "B"],
      [("B", [[Tok.int 1, Tok.real 0, Tok.real 0, Tok.real 0],
              [Tok.int 1, Tok.int 1, Tok.int 1, Tok.int 1]])]⟩ none = .error .nameError :=
  ⟨C10_amended.1 _ none ⟨[[5 + 0, 0 + 0, 0 + 0]], [[0, 0, 0, 0]], none⟩ (by rfl),
   C10_amended.2.1 ⟨[], [], []⟩ none rfl,
   C10_amended.2.2 _ none "B" []
     [("B", ⟨[[0, 0, 0]], [1], [[[1, 1, 1, 1]]]⟩)] ⟨[[0, 0, 0]], [1], [[[1, 1, 1, 1]]]⟩
     rfl (by decide) (by decide) (by decide)⟩

/-! ## Claim C5 -/

/-- A successful `gdfLoop` run appends `4 * n` vertex rows and `n` face
rows, the face rows being the consecutive fresh-index quadruples. -/
theorem gdfLoop_ok (lines : List Line) (base : ℕ) :
    ∀ (n : ℕ) (vs : List (List ℚ)) (fs : List (List ℤ)) (v : List (List ℚ)) (f : List (List ℤ)),
      gdfLoop lines base n vs fs = .ok (v, f) →
      v.length = vs.length + 4 * n ∧
      f = fs ++ (List.range n).map (fun j => gdfFace (vs.length + 4 * j)) := by
  intro n
  induction n with
  | zero =>
    intro vs fs v f h
    unfold gdfLoop at h
    simp only [Except.ok.injEq, Prod.mk.injEq] at h
    obtain ⟨h1, h2⟩ := h
    subst h1
    subst h2
    simp
  | succ n ih =>
    intro vs fs v f h
    unfold gdfLoop at h
    split at h
    next e heq0 => cases h
    next r0 heq0 =>
      split at h
      next e heq1 => cases h
      next r1 heq1 =>
        split at h
        next e heq2 => cases h
        next r2 heq2 =>
          split at h
          next e heq3 => cases h
          next r3 heq3 =>
            obtain ⟨ih1, ih2⟩ := ih _ _ _ _ h
            constructor
            · rw [ih1]
              simp only [List.length_append, List.length_cons, List.length_nil]
              omega
            · rw [ih2, List.append_assoc]
              congr 1
              rw [List.range_succ_eq_map, List.map_cons, List.map_map, List.singleton_append]
              congr 1
              apply List.map_congr_left
              intro j _
              simp only [Function.comp]
              congr 1
              simp only [List.length_append, List.length_cons, List.length_nil]
              omega

/-- Reading the cell block never touches the first two lines: the loop
only accesses line indices `4` and above. -/
theorem gdfLoop_congr (l0 l1 l0' l1' : Line) (rest : List Line) :
    ∀ (n : ℕ) (vs : List (List ℚ)) (fs : List (List ℤ)),
      gdfLoop (l0 :: l1 :: rest) 4 n vs fs = gdfLoop (l0' :: l1' :: rest) 4 n vs fs := by
  have hacc : ∀ (a b a' b' : Line) (k : ℕ), 2 ≤ k →
      (a :: b :: rest).getD k ([] : Line) = (a' :: b' :: rest).getD k [] := by
    intro a b a' b' k hk
    obtain ⟨k', rfl⟩ : ∃ k', k = k' + 2 := ⟨k - 2, by omega⟩
    rw [show k' + 2 = (k' + 1) + 1 from rfl]
    rw [List.getD_cons_succ, List.getD_cons_succ, List.getD_cons_succ, List.getD_cons_succ]
  intro n
  induction n with
  | zero => intro vs fs; rfl
  | succ n ih =>
    intro vs fs
    unfold gdfLoop
    rw [hacc l0 l1 l0' l1' (4 + vs.length) (by omega),
        hacc l0 l1 l0' l1' (4 + vs.length + 1) (by omega),
        hacc l0 l1 l0' l1' (4 + vs.length + 2) (by omega),
        hacc l0 l1 l0' l1' (4 + vs.length + 3) (by omega)]
    simp only [ih]

/-- Claim C5: a successfully decoded WAMIT-GDF file declaring `nf` faces
yields a vertex table of exactly `4 * nf` rows (one fresh slot per face
corner, no sharing and no merging) and a face table whose row `k` is
exactly `[4k, 4k+1, 4k+2, 4k+3]`; and the header's unit-length and gravity
scalars (the second line) have no effect on the result — any two
well-formed second lines give identical outcomes. -/
theorem C5_gdf :
    (∀ lines name m, loadGDF lines name = .ok m →
       ∃ nf : ℤ, gdfNf lines = .ok nf ∧ 0 ≤ nf ∧
         m.vertices.length = 4 * nf.toNat ∧ m.faces.length = nf.toNat ∧
         ∀ k : ℕ, k < nf.toNat →
           m.faces.get? k = some [(4 * k : ℤ), 4 * k + 1, 4 * k + 2, 4 * k + 3]) ∧
    (∀ l0 l1 l1' rest name, 2 ≤ l1.length → 2 ≤ l1'.length →
       loadGDF (l0 :: l1 :: rest) name = loadGDF (l0 :: l1' :: rest) name) := by
  constructor
  · intro lines name m h
    unfold loadGDF at h
    split at h
    next h1 => cases h
    next h1 =>
      split at h
      next h2 => cases h
      next h2 =>
        split at h
        next e heq => cases h
        next nf heq =>
          split at h
          next hneg => cases h
          next hneg =>
            split at h
            next e heq2 => cases h
            next vs fs heq2 =>
              simp only [Except.ok.injEq] at h
              obtain ⟨hl, hf⟩ := gdfLoop_ok lines 4 nf.toNat [] [] vs fs heq2
              refine ⟨nf, heq, by omega, ?_, ?_, ?_⟩
              · rw [← h]
                simp at hl
                simpa using hl
              · rw [← h]
                simp [hf]
              · intro k hk
                rw [← h]
                simp only [hf, List.nil_append, List.get?_map]
                rw [List.get?_range hk]
                simp [gdfFace]
  · intro l0 l1 l1' rest name h1 h1'
    unfold loadGDF gdfNf
    have e1 : (l0 :: l1 :: rest).getD 1 ([] : Line) = l1 := rfl
    have e1' : (l0 :: l1' :: rest).getD 1 ([] : Line) = l1' := rfl
    have e2 : (l0 :: l1 :: rest).getD 2 ([] : Line) = rest.getD 0 [] := rfl
    have e2' : (l0 :: l1' :: rest).getD 2 ([] : Line) = rest.getD 0 [] := rfl
    have e3 : (l0 :: l1 :: rest).getD 3 ([] : Line) = rest.getD 1 [] := rfl
    have e3' : (l0 :: l1' :: rest).getD 3 ([] : Line) = rest.getD 1 [] := rfl
    rw [e1, e1', e2, e2', e3, e3']
    rw [if_neg (show ¬l1.length < 2 by omega)]
    rw [if_neg (show ¬l1'.length < 2 by omega)]
    simp only [gdfLoop_congr l0 l1 l0 l1' rest]

/-- Witness for C5: a one-face GDF file, and irrelevance of the
unit-length/gravity line on it. -/
theorem C5_gdf_witness :
    (∃ nf : ℤ, gdfNf [[Tok.str "h"], [Tok.real 1, Tok.real 1], [Tok.int 0, Tok.int 0],
        [Tok.int 1], [Tok.real 0, Tok.real 0, Tok.real 0], [Tok.real 1, Tok.real 0, Tok.real 0],
        [Tok.real 1, Tok.real 1, Tok.real 0], [Tok.real 0, Tok.real 1, Tok.real 0]] = .ok nf ∧
      0 ≤ nf ∧
      (Mesh.mk [[0, 0, 0], [1, 0, 0], [1, 1, 0], [0, 1, 0]] [[0, 1, 2, 3]] none).vertices.length
        = 4 * nf.toNat ∧
      (Mesh.mk [[0, 0, 0], [1, 0, 0], [1, 1, 0], [0, 1, 0]] [[0, 1, 2, 3]] none).faces.length
        = nf.toNat ∧
      ∀ k : ℕ, k < nf.toNat →
        (Mesh.mk [[0, 0, 0], [1, 0, 0], [1, 1, 0], [0, 1, 0]] [[0, 1, 2, 3]] none).faces.get? k
          = some [(4 * k : ℤ), 4 * k + 1, 4 * k + 2, 4 * k + 3]) ∧
    loadGDF [[Tok.str "h"], [Tok.real 1, Tok.real 1], [Tok.int 0, Tok.int 0], [Tok.int 1]] none
      = loadGDF [[Tok.str "h"], [Tok.real 2, Tok.real 3], [Tok.int 0, Tok.int 0], [Tok.int 1]] none :=
  ⟨C5_gdf.1 [[Tok.str "h"], [Tok.real 1, Tok.real 1], [Tok.int 0, Tok.int 0],
      [Tok.int 1], [Tok.real 0, Tok.real 0, Tok.real 0], [Tok.real 1, Tok.real 0, Tok.real 0],
      [Tok.real 1, Tok.real 1, Tok.real 0], [Tok.real 0, Tok.real 1, Tok.real 0]] none
      ⟨[[0, 0, 0], [1, 0, 0], [1, 1, 0], [0, 1, 0]], [[0, 1, 2, 3]], none⟩ (by decide),
   C5_gdf.2 [Tok.str "h"] [Tok.real 1, Tok.real 1] [Tok.real 2, Tok.real 3]
      [[Tok.int 0, Tok.int 0], [Tok.int 1]] none (by decide) (by decide)⟩

/-! ## Claim C3 -/

/-- `a ≤ foldl max a l`. -/
theorem foldl_max_le_init : ∀ (l : List ℕ) (a : ℕ), a ≤ l.foldl max a := by
  intro l
  induction l with
  | nil => intro a; exact le_refl a
  | cons b rest ih => intro a; exact le_trans (le_max_left a b) (ih (max a b))

/-- Every member is bounded by the running maximum. -/
theorem le_foldl_max : ∀ (l : List ℕ) (a id : ℕ), id ∈ l → id ≤ l.foldl max a := by
  intro l
  induction l with
  | nil => intro a id h; cases h
  | cons b rest ih =>
    intro a id h
    rcases List.mem_cons.mp h with h | h
    · subst h
      exact le_trans (le_max_right a id) (foldl_max_le_init rest _)
    · exact ih _ id h

/-- Writes by `buildIdNewAux` at ids not in the list are invisible. -/
theorem buildIdNewAux_not_mem (idx : ℕ) :
    ∀ (ids : List ℕ) (pos : ℕ) (arr : List ℤ), idx ∉ ids →
      (buildIdNewAux pos arr ids)[idx]? = arr[idx]? := by
  intro ids
  induction ids with
  | nil => intro pos arr _; rfl
  | cons i rest ih =>
    intro pos arr hmem
    unfold buildIdNewAux
    rw [ih (pos + 1) _ (fun h => hmem (List.mem_cons_of_mem _ h))]
    exact List.getElem?_set_ne (fun h => hmem (by rw [h]; exact List.mem_cons_self _ _))

/-- The renumbering loop stores `pos + i + 1` at the `i`-th id when the
ids are distinct and within bounds. -/
theorem buildIdNewAux_get :
    ∀ (ids : List ℕ) (pos : ℕ) (arr : List ℤ), ids.Nodup →
      (∀ id ∈ ids, id < arr.length) →
      ∀ (i : ℕ) (hi : i < ids.length),
        (buildIdNewAux pos arr ids)[ids[i]]? = some (((pos + i : ℕ) : ℤ) + 1) := by
  intro ids
  induction ids with
  | nil => intro pos arr _ _ i hi; exact absurd hi (by simp)
  | cons idx rest ih =>
    intro pos arr hnd hlt i hi
    match i with
    | 0 =>
      have hnotin : idx ∉ rest := (List.nodup_cons.mp hnd).1
      unfold buildIdNewAux
      rw [show (idx :: rest)[0] = idx from rfl]
      rw [buildIdNewAux_not_mem idx rest (pos + 1) _ hnotin]
      rw [List.getElem?_set_self (hlt idx (List.mem_cons_self _ _))]
      simp
    | j + 1 =>
      have h1 : rest.Nodup := (List.nodup_cons.mp hnd).2
      have h2 : ∀ id ∈ rest, id < (arr.set idx ((pos : ℤ) + 1)).length := by
        intro id hid
        rw [List.length_set]
        exact hlt id (List.mem_cons_of_mem _ hid)
      have hj : j < rest.length := by
        simpa using Nat.lt_of_succ_lt_succ hi
      have hrec := ih (pos + 1) (arr.set idx ((pos : ℤ) + 1)) h1 h2 j hj
      unfold buildIdNewAux
      rw [List.getElem_cons_succ]
      rw [show pos + (j + 1) = pos + 1 + j from by omega]
      exact hrec

/-- The `id_new` table of `load_INP` maps the `i`-th on-disk node id of a
data file (distinct ids) to its 1-based position `i + 1` in the file's own
node order — not to the id itself. -/
theorem buildIdNew_maps_position (ids : List ℕ) (hnd : ids.Nodup)
    (i : ℕ) (hi : i < ids.length) :
    (buildIdNew ids)[ids[i]]? = some ((i : ℤ) + 1) := by
  have hlt : ∀ id ∈ ids, id < (List.replicate (maxIds ids + 1) (-1 : ℤ)).length := by
    intro id hid
    rw [List.length_replicate]
    have h := le_foldl_max ids 0 id hid
    unfold maxIds
    omega
  have h := buildIdNewAux_get ids 0 _ hnd hlt i hi
  unfold buildIdNew
  simpa using h

/-- Claim C3 counterexample: a composite INP configuration whose data file
uses node ids 10, 20, 30.  The face record references source index 10, so
the claim requires returned entry `10 - 1 = 9`; the decoder returns 0 (the
id's file-order position 1, minus one). -/
theorem C3_counterexample :
    (loadINP ⟨[("F", [0, 0, 0])], [.node "A" "F" false, .element "A"],
       [("A", [[Tok.int 10, Tok.real 1, Tok.real 0, Tok.real 0],
               [Tok.int 20, Tok.real 0, Tok.real 1, Tok.real 0],
               [Tok.int 30, Tok.real 0, Tok.real 0, Tok.real 1],
               [Tok.int 1, Tok.int 10, Tok.int 20, Tok.int 30]])]⟩ none).map Mesh.faces
      = .ok [[0, 1, 2, 0]] ∧
    (0 : ℤ) ≠ 10 - 1 :=
  ⟨by decide, by decide⟩

/-- Claim C3 (amended): for the simple 1-based decoders (natural-list,
Nemoh-mesh-tool, RADIOSS, HydroSTAR, TECPLOT, GMSH-legacy, Nemoh-native)
the returned face table is exactly the parsed source rows with one
subtracted from every entry; for the composite INP decoder the returned
entries instead pass through the file's renumbering table, which maps the
`i`-th on-disk node id to position `i + 1` (so `returned == source - 1`
only when the ids are exactly `1..n` in order), the final table again
being the assembled rows minus one. -/
theorem C3_amended :
    (∀ lines name m, loadNAT lines name = .ok m →
       ∃ v f, natParse lines = .ok (v, f) ∧ m.faces = subFaces f) ∧
    (∀ lines name m, loadNEM lines name = .ok m →
       ∃ v f, nemParse lines = .ok (v, f) ∧ m.faces = subFaces f) ∧
    (∀ lines name m, loadRAD lines name = .ok m →
       ∃ v f, radParse lines = .ok (v, f) ∧ m.faces = subFaces f) ∧
    (∀ lines name m, loadHST lines name = .ok m →
       ∃ v f, hstParse lines = .ok (v, f) ∧ m.faces = subFaces f) ∧
    (∀ d name m, loadTEC d name = .ok m →
       ∃ v f, tecParse d = .ok (v, f) ∧ m.faces = subFaces f) ∧
    (∀ d name m, loadMSH d name = .ok m →
       ∃ v f, mshParse d = .ok (v, f) ∧ m.faces = subFaces f) ∧
    (∀ lines name r, loadMAR lines name = .ok r →
       ∃ t v f, marParse lines = .ok (t, v, f) ∧ r.facesOf = subFaces f) ∧
    (∀ (ids : List ℕ), ids.Nodup → ∀ (i : ℕ) (hi : i < ids.length),
       (buildIdNew ids)[ids[i]]? = some ((i : ℤ) + 1)) ∧
    (∀ cfg name m, loadINP cfg name = .ok m →
       ∃ pf st f, parseFiles cfg = .ok pf ∧
         inpReplay pf (staleIdx pf) cfg.frames initInpState cfg.layout = .ok st ∧
         st.facesAcc = some f ∧ m.faces = subFaces f) := by
  refine ⟨?_, ?_, ?_, ?_, ?_, ?_, ?_, ?_, ?_⟩
  · intro lines name m h
    unfold loadNAT at h
    split at h
    next e heq => cases h
    next v f heq =>
      simp only [Except.ok.injEq] at h
      exact ⟨v, f, heq, by rw [← h]⟩
  · intro lines name m h
    unfold loadNEM at h
    split at h
    next e heq => cases h
    next v f heq =>
      simp only [Except.ok.injEq] at h
      exact ⟨v, f, heq, by rw [← h]⟩
  · intro lines name m h
    unfold loadRAD at h
    split at h
    next e heq => cases h
    next v f heq =>
      simp only [Except.ok.injEq] at h
      exact ⟨v, f, heq, by rw [← h]⟩
  · intro lines name m h
    unfold loadHST at h
    split at h
    next e heq => cases h
    next v f heq =>
      simp only [Except.ok.injEq] at h
      exact ⟨v, f, heq, by rw [← h]⟩
  · intro d name m h
    unfold loadTEC at h
    split at h
    next e heq => cases h
    next v f heq =>
      simp only [Except.ok.injEq] at h
      exact ⟨v, f, heq, by rw [← h]⟩
  · intro d name m h
    unfold loadMSH at h
    split at h
    next e heq => cases h
    next v f heq =>
      simp only [Except.ok.injEq] at h
      exact ⟨v, f, heq, by rw [← h]⟩
  · intro lines name r h
    unfold loadMAR at h
    split at h
    next e heq => cases h
    next t v f heq =>
      split at h
      next hti => cases h
      next k hti =>
        split at h
        next hk =>
          split at h
          next =>
            simp only [Except.ok.injEq] at h
            exact ⟨t, v, f, heq, by rw [← h]; rfl⟩
          next nm =>
            simp only [Except.ok.injEq] at h
            exact ⟨t, v, f, heq, by rw [← h]; rfl⟩
        next hk =>
          simp only [Except.ok.injEq] at h
          exact ⟨t, v, f, heq, by rw [← h]; rfl⟩
  · intro ids hnd i hi
    exact buildIdNew_maps_position ids hnd i hi
  · intro cfg name m h
    unfold loadINP at h
    split at h
    next e heq => cases h
    next pf heq =>
      split at h
      next e heq2 => cases h
      next st heq2 =>
        split at h
        next heq3 => cases h
        next v heq3 =>
          split at h
          next heq4 => cases h
          next f heq4 =>
            simp only [Except.ok.injEq] at h
            exact ⟨pf, st, f, heq, heq2, heq4, by rw [← h]⟩

/-- Witness for C3 (amended): one concrete successful decode per
conjunct. -/
theorem C3_amended_witness :
    (∃ v f, natParse [[Tok.int 0, Tok.int 0], [Tok.int 4, Tok.int 1],
        [Tok.real 0, Tok.real 0, Tok.real 0], [Tok.real 1, Tok.real 0, Tok.real 0],
        [Tok.real 1, Tok.real 1, Tok.real 0], [Tok.real 0, Tok.real 1, Tok.real 0],
        [Tok.int 1, Tok.int 2, Tok.int 3, Tok.int 4]] = .ok (v, f) ∧
      (Mesh.mk [[0, 0, 0], [1, 0, 0], [1, 1, 0], [0, 1, 0]] [[0, 1, 2, 3]] none).faces
        = subFaces f) ∧
    (∃ v f, nemParse [[Tok.int 3], [Tok.int 1],
        [Tok.real 0, Tok.real 0, Tok.real 0], [Tok.real 1, Tok.real 0, Tok.real 0],
        [Tok.real 1, Tok.real 1, Tok.real 0],
        [Tok.int 1, Tok.int 2, Tok.int 3, Tok.int 1]] = .ok (v, f) ∧
      (Mesh.mk [[0, 0, 0], [1, 0, 0], [1, 1, 0]] [[0, 1, 2, 0]] none).faces = subFaces f) ∧
    (∃ v f, radParse [[Tok.str "HEAD"],
        [Tok.int 1, Tok.real 0, Tok.real 0, Tok.real 0],
        [Tok.int 2, Tok.real 1, Tok.real 0, Tok.real 0],
        [Tok.int 3, Tok.real 1, Tok.real 1, Tok.real 0],
        [Tok.int 4, Tok.real 0, Tok.real 1, Tok.real 0],
        [Tok.int 1, Tok.int 0, Tok.int 0, Tok.int 1, Tok.int 2, Tok.int 3, Tok.int 4],
        [Tok.int 2, Tok.int 0, Tok.int 0, Tok.int 2, Tok.int 3, Tok.int 4, Tok.int 1],
        [Tok.int 3, Tok.int 0, Tok.int 0, Tok.int 3, Tok.int 4, Tok.int 1, Tok.int 2]]
        = .ok (v, f) ∧
      (Mesh.mk [[0, 0, 0], [1, 0, 0], [1, 1, 0], [0, 1, 0]]
        [[0, 1, 2, 3], [1, 2, 3, 0], [2, 3, 0, 1]] none).faces = subFaces f) ∧
    (∃ v f, hstParse [[Tok.int 1, Tok.real 0, Tok.real 0, Tok.real 0],
        [Tok.int 2, Tok.real 1, Tok.real 0, Tok.real 0],
        [Tok.int 3, Tok.real 1, Tok.real 1, Tok.real 0],
        [Tok.int 4, Tok.real 0, Tok.real 1, Tok.real 0],
        [Tok.int 1, Tok.int 2, Tok.int 3, Tok.int 4]] = .ok (v, f) ∧
      (Mesh.mk [[0, 0, 0], [1, 0, 0], [1, 1, 0], [0, 1, 0]] [[0, 1, 2, 3]] none).faces
        = subFaces f) ∧
    (∃ v f, tecParse ⟨some ⟨2, 1, [0, 0, 0, 1, 0, 0], [1, 2, 2, 1]⟩⟩ = .ok (v, f) ∧
      (Mesh.mk [[0, 0, 0], [1, 0, 0]] [[0, 1, 1, 0]] none).faces = subFaces f) ∧
    (∃ v f, mshParse ⟨some (1, [Tok.int 1, Tok.real 0, Tok.real 0, Tok.real 0]),
        some (1, [[Tok.int 1, Tok.int 2, Tok.int 1, Tok.int 1, Tok.int 1]])⟩ = .ok (v, f) ∧
      (Mesh.mk [[0, 0, 0]] [[0, 0, 0, 0]] none).faces = subFaces f) ∧
    (∃ t v f, marParse [[Tok.int 0, Tok.int 1],
        [Tok.int 1, Tok.real 0, Tok.real 0, Tok.real 0],
        [Tok.int 2, Tok.real 1, Tok.real 0, Tok.real 0],
        [Tok.int 0, Tok.int 0],
        [Tok.int 1, Tok.int 2, Tok.int 1, Tok.int 1],
        [Tok.int 0, Tok.int 0]] = .ok (t, v, f) ∧
      (LoadedMesh.reflSym ⟨[[0, 0, 0], [1, 0, 0]], [[0, 1, 0, 0]], none⟩ .xOz none).facesOf
        = subFaces f) ∧
    (buildIdNew [5, 7])[(([5, 7] : List ℕ))[0]]? = some ((0 : ℤ) + 1) ∧
    (∃ pf st f, parseFiles ⟨[("F", [0, 0, 0])], [.node "A" "F" false, .element "A"],
        [("A", [[Tok.int 1, Tok.real 1, Tok.real 0, Tok.real 0],
                [Tok.int 2, Tok.real 0, Tok.real 1, Tok.real 0],
                [Tok.int 3, Tok.real 0, Tok.real 0, Tok.real 1],
                [Tok.int 1, Tok.int 1, Tok.int 2, Tok.int 3]])]⟩ = .ok pf ∧
      inpReplay pf (staleIdx pf)
        (⟨[("F", [0, 0, 0])], [.node "A" "F" false, .element "A"],
          [("A", [[Tok.int 1, Tok.real 1, Tok.real 0, Tok.real 0],
                  [Tok.int 2, Tok.real 0, Tok.real 1, Tok.real 0],
                  [Tok.int 3, Tok.real 0, Tok.real 0, Tok.real 1],
                  [Tok.int 1, Tok.int 1, Tok.int 2, Tok.int 3]])]⟩ : InpConfig).frames
        initInpState
        (⟨[("F", [0, 0, 0])], [.node "A" "F" false, .element "A"],
          [("A", [[Tok.int 1, Tok.real 1, Tok.real 0, Tok.real 0],
                  [Tok.int 2, Tok.real 0, Tok.real 1, Tok.real 0],
                  [Tok.int 3, Tok.real 0, Tok.real 0, Tok.real 1],
                  [Tok.int 1, Tok.int 1, Tok.int 2, Tok.int 3]])]⟩ : InpConfig).layout
        = .ok st ∧
      st.facesAcc = some f ∧
      (Mesh.mk [[1 + 0, 0 + 0, 0 + 0], [0 + 0, 1 + 0, 0 + 0], [0 + 0, 0 + 0, 1 + 0]]
        [[0, 1, 2, 0]] none).faces = subFaces f) :=
  ⟨C3_amended.1 _ none ⟨[[0, 0, 0], [1, 0, 0], [1, 1, 0], [0, 1, 0]], [[0, 1, 2, 3]], none⟩
     (by decide),
   C3_amended.2.1 _ none ⟨[[0, 0, 0], [1, 0, 0], [1, 1, 0]], [[0, 1, 2, 0]], none⟩ (by decide),
   C3_amended.2.2.1 _ none ⟨[[0, 0, 0], [1, 0, 0], [1, 1, 0], [0, 1, 0]],
     [[0, 1, 2, 3], [1, 2, 3, 0], [2, 3, 0, 1]], none⟩ (by decide),
   C3_amended.2.2.2.1 _ none ⟨[[0, 0, 0], [1, 0, 0], [1, 1, 0], [0, 1, 0]], [[0, 1, 2, 3]], none⟩
     (by decide),
   C3_amended.2.2.2.2.1 _ none ⟨[[0, 0, 0], [1, 0, 0]], [[0, 1, 1, 0]], none⟩ (by decide),
   C3_amended.2.2.2.2.2.1 _ none ⟨[[0, 0, 0]], [[0, 0, 0, 0]], none⟩ (by decide),
   C3_amended.2.2.2.2.2.2.1 _ none
     (.reflSym ⟨[[0, 0, 0], [1, 0, 0]], [[0, 1, 0, 0]], none⟩ .xOz none) (by decide),
   C3_amended.2.2.2.2.2.2.2.1 [5, 7] (by decide) 0 (by decide),
   C3_amended.2.2.2.2.2.2.2.2 _ none
     ⟨[[1 + 0, 0 + 0, 0 + 0], [0 + 0, 1 + 0, 0 + 0], [0 + 0, 0 + 0, 1 + 0]], [[0, 1, 2, 0]], none⟩
     (by rfl)⟩

/-! ## Claim C9 -/

/-- Reading back the cursor just set. -/
theorem usedLookup_setUsed_self (u : List (String × ℕ)) (f : String) (v : ℕ) :
    usedLookup (setUsed u f v) f = some v := by
  unfold setUsed usedLookup
  rw [if_pos rfl]

/-- Erasing another key's binding does not change a lookup. -/
theorem usedErase_ne (f g : String) (hne : g ≠ f) :
    ∀ u : List (String × ℕ), usedLookup (usedErase u g) f = usedLookup u f := by
  intro u
  induction u with
  | nil => rfl
  | cons p rest ih =>
    obtain ⟨k, x⟩ := p
    by_cases hk : k = g
    · subst hk
      simp [usedErase, usedLookup, hne]
    · by_cases hkf : k = f
      · simp [usedErase, usedLookup, hk, hkf, Ne.symm hne]
      · simp [usedErase, usedLookup, hk, hkf, ih]

/-- Setting another file's cursor does not change a lookup. -/
theorem usedLookup_setUsed_ne (u : List (String × ℕ)) (f g : String) (v : ℕ)
    (hne : g ≠ f) : usedLookup (setUsed u g v) f = usedLookup u f := by
  unfold setUsed
  simp [usedLookup, hne, usedErase_ne f g hne u]

/-- A NODE step never touches the element-section cursors. -/
theorem inpStep_node_used {pf : List (String × ParsedDat)} {stale : Option ℕ}
    {frames : List (String × List ℚ)} {st : InpState} {a fr : String} {inc : Bool}
    {st1 : InpState} (h : inpStep pf stale frames st (.node a fr inc) = .ok st1) :
    st1.used = st.used := by
  simp only [inpStep] at h
  split at h
  next => cases h
  next pd heq =>
    split at h
    next => cases h
    next v heq2 =>
      split at h
      next e heq3 => cases h
      next nodes heq3 =>
        split at h
        next h0 =>
          simp only [Except.ok.injEq] at h
          rw [← h]
        next h0 =>
          split at h
          next hinc =>
            split at h
            next => cases h
            next vs heq4 =>
              split at h
              next => cases h
              next idx heq5 =>
                split at h
                next e heq6 => cases h
                next vs2 heq6 =>
                  simp only [Except.ok.injEq] at h
                  rw [← h]
          next hinc =>
            split at h
            next => cases h
            next vs heq4 =>
              simp only [Except.ok.injEq] at h
              rw [← h]

/-- Inversion of a successful ELEMENT step: the file is present, its
cursor was in range, and the cursor is advanced with wrap-around to 0
after the last section. -/
theorem inpStep_element_used {pf : List (String × ParsedDat)} {stale : Option ℕ}
    {frames : List (String × List ℚ)} {st : InpState} {g : String} {st1 : InpState}
    (h : inpStep pf stale frames st (.element g) = .ok st1) :
    ∃ pd, pf.lookup g = some pd ∧ usedOf st g < pd.elemSections.length ∧
      st1.used = setUsed st.used g
        (if usedOf st g + 1 = pd.elemSections.length then 0 else usedOf st g + 1) := by
  simp only [inpStep] at h
  split at h
  next => cases h
  next pd heq =>
    split at h
    next => cases h
    next sec heq2 =>
      split at h
      next => cases h
      next inc heq3 =>
        refine ⟨pd, heq, ?_, ?_⟩
        · obtain ⟨hlt, _⟩ := List.get?_eq_some.mp heq2
          exact hlt
        · split at h
          next h0 =>
            simp only [Except.ok.injEq] at h
            rw [← h]
          next h0 =>
            split at h
            next => cases h
            next fs heq4 =>
              simp only [Except.ok.injEq] at h
              rw [← h]

/-- Counting ELEMENT directives: cons cases. -/
theorem countElemsOf_cons (f : String) (d : InpDirective) (ds : List InpDirective) :
    countElemsOf f (d :: ds)
      = (if d = .element f then 1 else 0) + countElemsOf f ds := by
  unfold countElemsOf
  rw [List.filter_cons]
  by_cases hd : d = InpDirective.element f
  · rw [if_pos (by simp [hd]), if_pos hd]
    simp [Nat.add_comm]
  · rw [if_neg (by simp [hd]), if_neg hd]
    simp

/-- The wrap-around cursor update is addition modulo the section count. -/
theorem wrap_eq_mod (u n : ℕ) (hu : u < n) :
    (if u + 1 = n then 0 else u + 1) = (u + 1) % n := by
  by_cases he : u + 1 = n
  · rw [if_pos he, he, Nat.mod_self]
  · rw [if_neg he, Nat.mod_eq_of_lt (by omega)]

/-- Round-robin invariant of the replay loop: after a successful replay,
a file's cursor equals the number of its ELEMENT directives taken modulo
its section count. -/
theorem inpReplay_roundRobin (pf : List (String × ParsedDat)) (stale : Option ℕ)
    (frames : List (String × List ℚ)) (f : String) (pd : ParsedDat)
    (hpd : pf.lookup f = some pd) :
    ∀ (ds : List InpDirective) (st st' : InpState),
      inpReplay pf stale frames st ds = .ok st' →
      usedOf st f < pd.elemSections.length →
      usedOf st' f = (usedOf st f + countElemsOf f ds) % pd.elemSections.length := by
  intro ds
  induction ds with
  | nil =>
    intro st st' h hu
    cases h
    unfold countElemsOf
    simp
    exact (Nat.mod_eq_of_lt hu).symm
  | cons d ds ih =>
    intro st st' h hu
    unfold inpReplay at h
    split at h
    next e heq => cases h
    next st1 heq =>
      cases d with
      | node a fr inc =>
        have hused : usedOf st1 f = usedOf st f := by
          unfold usedOf
          rw [inpStep_node_used heq]
        rw [countElemsOf_cons, if_neg (by simp)]
        have := ih st1 st' h (by rw [hused]; exact hu)
        rw [this, hused]
        simp
      | element g =>
        obtain ⟨pd', hpd', hlt', hused'⟩ := inpStep_element_used heq
        by_cases hg : g = f
        · subst hg
          have hpdeq : pd' = pd := by
            rw [hpd] at hpd'
            exact (Option.some.inj hpd').symm
          subst hpdeq
          have hu1 : usedOf st1 g = (usedOf st g + 1) % pd'.elemSections.length := by
            unfold usedOf
            rw [hused', usedLookup_setUsed_self, Option.getD_some, wrap_eq_mod _ _ hlt']
            rfl
          have hlt1 : usedOf st1 g < pd'.elemSections.length := by
            rw [hu1]
            exact Nat.mod_lt _ (by omega)
          have hrec := ih st1 st' h hlt1
          rw [hrec, hu1, Nat.mod_add_mod, countElemsOf_cons, if_pos rfl]
          congr 1
          omega
        · have hused : usedOf st1 f = usedOf st f := by
            unfold usedOf
            rw [hused', usedLookup_setUsed_ne _ _ _ _ hg]
          rw [countElemsOf_cons, if_neg (by simp [hg])]
          have := ih st1 st' h (by rw [hused]; exact hu)
          rw [this, hused]
          simp

/-- Claim C9 counterexample: a configuration whose single NODE directive
carries the increment flag ON, followed by one ELEMENT directive.  The
most recently replayed NODE directive has its flag on, so the claim
requires the running vertex-count offset (3) to be added, i.e. the face
row `[3, 4, 5, 3]`; the code sets `increment = False` for the
table-initializing first NODE regardless of its flag and appends the block
unshifted, returning `[0, 1, 2, 0]`. -/
theorem C9_counterexample :
    (loadINP ⟨[("F", [0, 0, 0])], [.node "A" "F" true, .element "A"],
       [("A", [[Tok.int 1, Tok.real 1, Tok.real 0, Tok.real 0],
               [Tok.int 2, Tok.real 0, Tok.real 1, Tok.real 0],
               [Tok.int 3, Tok.real 0, Tok.real 0, Tok.real 1],
               [Tok.int 1, Tok.int 1, Tok.int 2, Tok.int 3]])]⟩ none).map Mesh.faces
      = .ok [[0, 1, 2, 0]] ∧
    ([[0, 1, 2, 0]] : List (List ℤ)) ≠ [[3, 4, 5, 3]] :=
  ⟨by decide, by decide⟩

/-- Claim C9 (amended): ELEMENT directives referencing the same data file
consume that file's element sections in order, one per directive, cycling
back to the first section after the last (after a successful replay a
file's cursor equals its ELEMENT-directive count modulo its section
count); the appended element block has the running vertex-count offset
added exactly when the running increment flag is on — which the NODE step
sets to the directive's flag only when the vertex table was already
initialized, and to off for the table-initializing first NODE regardless
of its flag. -/
theorem C9_amended :
    (∀ (cfg : InpConfig) pf f pd st', parseFiles cfg = .ok pf →
       pf.lookup f = some pd → pd.elemSections ≠ [] →
       inpReplay pf (staleIdx pf) cfg.frames initInpState cfg.layout = .ok st' →
       usedOf st' f = countElemsOf f cfg.layout % pd.elemSections.length) ∧
    (∀ pf stale frames (st : InpState) g st1 b, st.increment = some b →
       inpStep pf stale frames st (.element g) = .ok st1 →
       ∃ pd sec, pf.lookup g = some pd ∧
         pd.elemSections.get? (usedOf st g) = some sec ∧
         (st.nbElems = 0 → st1.facesAcc = some
            (if b then sec.map (fun r => r.map (fun x => x + (st.nbNodes : ℤ))) else sec)) ∧
         (∀ fs, st.nbElems ≠ 0 → st.facesAcc = some fs → st1.facesAcc = some
            (fs ++ (if b then sec.map (fun r => r.map (fun x => x + (st.nbNodes : ℤ))) else sec)))) ∧
    (∀ pf stale frames (st : InpState) a fr inc st1,
       inpStep pf stale frames st (.node a fr inc) = .ok st1 →
       (st.nbNodes = 0 → st1.increment = some false) ∧
       (st.nbNodes ≠ 0 → st1.increment = some inc)) := by
  refine ⟨?_, ?_, ?_⟩
  · intro cfg pf f pd st' hpf hpd hne hrep
    have h0 : usedOf initInpState f = 0 := rfl
    have := inpReplay_roundRobin pf (staleIdx pf) cfg.frames f pd hpd cfg.layout
      initInpState st' hrep (by rw [h0]; cases hs : pd.elemSections with
        | nil => exact absurd hs hne
        | cons s ss => simp)
    rw [this, h0, Nat.zero_add]
  · intro pf stale frames st g st1 b hb h
    simp only [inpStep] at h
    split at h
    next => cases h
    next pd heq =>
      split at h
      next => cases h
      next sec heq2 =>
        split at h
        next => cases h
        next inc heq3 =>
          have hbi : b = inc := Option.some.inj ((hb.symm.trans heq3))
          subst hbi
          refine ⟨pd, sec, heq, heq2, ?_, ?_⟩
          · intro h0
            rw [if_pos h0] at h
            simp only [Except.ok.injEq] at h
            rw [← h]
          · intro fs hne hfs
            rw [if_neg hne] at h
            split at h
            next hfa => rw [hfa] at hfs; cases hfs
            next fs2 hfa =>
              rw [hfa] at hfs
              have : fs2 = fs := Option.some.inj hfs
              subst this
              simp only [Except.ok.injEq] at h
              rw [← h]
  · intro pf stale frames st a fr inc st1 h
    simp only [inpStep] at h
    split at h
    next => cases h
    next pd heq =>
      split at h
      next => cases h
      next v heq2 =>
        split at h
        next e heq3 => cases h
        next nodes heq3 =>
          split at h
          next h0 =>
            simp only [Except.ok.injEq] at h
            constructor
            · intro _
              rw [← h]
            · intro hne
              exact absurd h0 hne
          next h0 =>
            constructor
            · intro h1
              exact absurd h1 h0
            · intro _
              split at h
              next hinc =>
                split at h
                next => cases h
                next vs heq4 =>
                  split at h
                  next => cases h
                  next idx heq5 =>
                    split at h
                    next e heq6 => cases h
                    next vs2 heq6 =>
                      simp only [Except.ok.injEq] at h
                      rw [← h, hinc]
              next hinc =>
                split at h
                next => cases h
                next vs heq4 =>
                  simp only [Except.ok.injEq] at h
                  rw [← h]
                  simp at hinc
                  rw [hinc]

/-- Claim C9 (amended) witness: on `inpCfg9` (three ELEMENT directives,
two element sections) the final cursor is `3 % 2`; an ELEMENT step on the
mid-replay state `inpStE` appends the offset section; the
table-initializing NODE step leaves the increment flag off. -/
theorem C9_amended_witness :
    (usedOf inpSt9 "A" = countElemsOf "A" inpCfg9.layout % inpPd9.elemSections.length) ∧
    (∃ pd sec, inpPfE.lookup "A" = some pd ∧
       pd.elemSections.get? (usedOf inpStE "A") = some sec ∧
       (inpStE.nbElems = 0 → inpStE1.facesAcc = some
          (sec.map (fun r => r.map (fun x => x + (inpStE.nbNodes : ℤ))))) ∧
       (∀ fs, inpStE.nbElems ≠ 0 → inpStE.facesAcc = some fs → inpStE1.facesAcc = some
          (fs ++ sec.map (fun r => r.map (fun x => x + (inpStE.nbNodes : ℤ)))))) ∧
    ((initInpState.nbNodes = 0 → inpStN1.increment = some false) ∧
     (initInpState.nbNodes ≠ 0 → inpStN1.increment = some false)) :=
  ⟨C9_amended.1 inpCfg9 [("A", inpPd9)] "A" inpPd9 inpSt9
     (by decide) (by decide) (by decide) rfl,
   C9_amended.2.1 inpPfE none [] inpStE "A" inpStE1 true rfl (by decide),
   C9_amended.2.2 inpPfE none [("F", [0, 0, 0])] initInpState "A" "F" false inpStN1 rfl⟩
